import Mathlib

/-!
# Battery lab: mode scheduling and bounded connectivity

A shallow embedding of the three ESP32-C3 sketches of the repository

* `1-minute-5-stage-code.cpp` (round-robin demo, namespace `RoundRobin`),
* `power-strategy.cpp` (deep-sleep pipeline, namespace `LowPower`),
* `transpassingrate.cpp` (transmission-rate sweep, namespace `RateSweep`),

followed by theorems about them.

Conventions of the embedding.

* `unsigned long` is 32 bits wide on the ESP32-C3: values are naturals below
  `ULONG_MOD` and subtraction wraps (`usub`).
* `int` counters are mathematical integers; signed overflow is undefined
  behaviour in C++ and is outside the model.
* `float` arithmetic is exact rational arithmetic.
* The libraries (WiFi, FirebaseClient, the sensor) are an environment `Env`
  of answer streams; every call that reads them or acts on the radio, the
  database or the sleep timer is recorded in the trace of the `World`, newest
  event first. Calls that only configure or pump a library (`WiFi.setSleep`,
  `WiFi.setAutoReconnect`, `ssl_client.setInsecure`, `app.getApp`,
  `Database.url`, `app.loop`), pin writes and Serial output are not modelled,
  except the banners printed on a mode change and at the end of a sweep.
* `WiFi.status()` can be `WL_CONNECTED` only while the radio is on; the radio
  is switched off by `WiFi.disconnect(true)` and `WiFi.mode(WIFI_OFF)` and on
  by `WiFi.mode(WIFI_STA)` and `WiFi.begin`.
* Within a call the clock advances by `delay` only; `run` sets the clock at
  the top of each pass of `loop()`.
* A `while` loop takes a fuel argument and yields `none` when the fuel runs
  out before the loop condition fails.
-/

namespace BatteryLab

/-! ## The device and its environment -/

/-- Number of values of an `unsigned long` (32 bits). -/
def ULONG_MOD : Nat := 4294967296

/-- Subtraction of two `unsigned long` values, wrapping modulo `ULONG_MOD`. -/
def usub (a b : Nat) : Nat :=
  (a % ULONG_MOD + (ULONG_MOD - b % ULONG_MOD)) % ULONG_MOD

/-- Calls that reach the libraries, with the answers they gave. -/
inductive Event where
  /-- `WiFi.status()` was read; the flag says whether it was `WL_CONNECTED`. -/
  | status (connected : Bool)
  /-- `WiFi.disconnect(true)`. -/
  | disconnect
  /-- `WiFi.mode(WIFI_OFF)`. -/
  | modeOff
  /-- `WiFi.mode(WIFI_STA)`. -/
  | modeSta
  /-- `WiFi.begin(ssid, password)`. -/
  | wifiBegin
  /-- The call `initializeApp(...)` that starts Firebase authentication. -/
  | initApp
  /-- `app.ready()` was read. -/
  | ready (r : Bool)
  /-- `pulseIn(ECHO_PIN, HIGH, 50000)` returned the given duration. -/
  | pulse (duration : Int)
  /-- `Database.set(...)`: the numbers spliced into the path, the last path
  segment and the value written. -/
  | dbSet (ids : List Int) (leaf : String) (value : ℚ)
  /-- The banner `MODE n: ...` printed when a mode is entered. -/
  | banner (mode : Nat)
  /-- The banner `ALL TESTS COMPLETED!` of the rate sweep. -/
  | allDone
  /-- `esp_sleep_enable_timer_wakeup(us)`. -/
  | timerWakeup (us : Nat)
  /-- `esp_deep_sleep_start()`. -/
  | deepSleepStart
  deriving DecidableEq, Repr

/-- State of the hardware and record of what the sketch did to it. -/
structure World where
  /-- Milliseconds since power-on. -/
  clock : Nat
  /-- Number of `WiFi.status()` reads so far. -/
  polls : Nat
  /-- Whether the radio is switched on (station mode). -/
  radioOn : Bool
  /-- Number of `app.ready()` reads so far. -/
  readyPolls : Nat
  /-- Number of `pulseIn` calls so far. -/
  pulses : Nat
  /-- Every library call so far, newest first. -/
  trace : List Event
  deriving DecidableEq, Repr

/-- Behaviour of everything outside the sketch. -/
structure Env where
  /-- Whether the access point has the station associated at the k-th read
  of `WiFi.status()`. -/
  link : Nat → Bool
  /-- Answer of the k-th read of `app.ready()`. -/
  ready : Nat → Bool
  /-- Echo duration in microseconds returned by the k-th `pulseIn`
  (0 on timeout). -/
  echo : Nat → Int
  /-- Whether the remote store accepts the k-th `Database.set`. No sketch
  reads it: the deep-sleep pipeline passes `nullptr` as the result callback
  and the callback of the other two only prints. -/
  accept : Nat → Bool := fun _ => true

/-- `millis()`. -/
def millis (w : World) : Nat := w.clock % ULONG_MOD

/-- `delay(ms)`. -/
def delay (ms : Nat) (w : World) : World := { w with clock := w.clock + ms }

/-- Record a library call. -/
def emit (e : Event) (w : World) : World := { w with trace := e :: w.trace }

/-- `WiFi.status() == WL_CONNECTED`: connected needs the radio on and the
access point to have the station associated. -/
def wifiStatus (env : Env) (w : World) : Bool × World :=
  let connected := w.radioOn && env.link w.polls
  (connected, { w with polls := w.polls + 1, trace := Event.status connected :: w.trace })

/-- `WiFi.disconnect(true)`: drops the link and switches the radio off. -/
def wifiDisconnect (w : World) : World :=
  { w with radioOn := false, trace := Event.disconnect :: w.trace }

/-- `WiFi.mode(WIFI_OFF)`. -/
def wifiModeOff (w : World) : World :=
  { w with radioOn := false, trace := Event.modeOff :: w.trace }

/-- `WiFi.mode(WIFI_STA)`. -/
def wifiModeSta (w : World) : World :=
  { w with radioOn := true, trace := Event.modeSta :: w.trace }

/-- `WiFi.begin(ssid, password)`. -/
def wifiBegin (w : World) : World :=
  { w with radioOn := true, trace := Event.wifiBegin :: w.trace }

/-- `app.ready()`. -/
def appReady (env : Env) (w : World) : Bool × World :=
  let r := env.ready w.readyPolls
  (r, { w with readyPolls := w.readyPolls + 1, trace := Event.ready r :: w.trace })

/-- `pulseIn(ECHO_PIN, HIGH, 50000)`. -/
def pulseIn (env : Env) (w : World) : Int × World :=
  let d := env.echo w.pulses
  (d, { w with pulses := w.pulses + 1, trace := Event.pulse d :: w.trace })

/-- The world at power-on. -/
def powerOn : World :=
  { clock := 0, polls := 0, radioOn := false, readyPolls := 0, pulses := 0, trace := [] }

/-- An environment in which the access point never associates the station,
Firebase never becomes ready and the sensor always times out. -/
def deadEnv : Env :=
  { link := fun _ => false, ready := fun _ => false, echo := fun _ => 0 }

/-- An environment in which the access point has the station associated at
every read, Firebase is ready at every read and the echo takes 5832 µs. -/
def liveEnv : Env :=
  { link := fun _ => true, ready := fun _ => true, echo := fun _ => 5832 }

/-- An environment in which the link is up at every read, Firebase never
becomes ready and the sensor always times out. -/
def noAuthEnv : Env :=
  { link := fun _ => true, ready := fun _ => false, echo := fun _ => 0 }

/-- An environment in which the link is up and Firebase ready at every read,
the sensor always times out and the remote store rejects every write. -/
def rejectEnv : Env :=
  { link := fun _ => true, ready := fun _ => true, echo := fun _ => 0,
    accept := fun _ => false }

/-- An environment like `rejectEnv` in which the store accepts every write. -/
def acceptEnv : Env :=
  { link := fun _ => true, ready := fun _ => true, echo := fun _ => 0,
    accept := fun _ => true }

/-! ## Observations on traces -/

/-- Is the event a `Database.set`? -/
def Event.isDbSet : Event → Bool
  | Event.dbSet _ _ _ => true
  | _ => false

/-- Is the event a call into the WiFi library? -/
def Event.isWiFi : Event → Bool
  | Event.status _ => true
  | Event.disconnect => true
  | Event.modeOff => true
  | Event.modeSta => true
  | Event.wifiBegin => true
  | _ => false

/-- The modes whose banner was printed, newest first. -/
def banners : List Event → List Nat
  | [] => []
  | Event.banner m :: t => m :: banners t
  | _ :: t => banners t

/-- The path numbers and last path segment of every `Database.set` in a
trace, newest first. -/
def dbKeys : List Event → List (List Int × String)
  | [] => []
  | Event.dbSet ids leaf _ :: t => (ids, leaf) :: dbKeys t
  | _ :: t => dbKeys t

/-- Number of `initializeApp` calls since the connectivity session of the
newest event began: a session ends when the radio is torn down
(`WiFi.disconnect`, `WiFi.mode(WIFI_OFF)`) or `WiFi.status()` shows the link
down. -/
def authsThisSession : List Event → Nat
  | [] => 0
  | Event.initApp :: t => authsThisSession t + 1
  | Event.disconnect :: _ => 0
  | Event.modeOff :: _ => 0
  | Event.status false :: _ => 0
  | _ :: t => authsThisSession t

/-- At every moment of the trace at most one `initializeApp` had been called
in the connectivity session of that moment. -/
def sessionsOk (t : List Event) : Prop :=
  ∀ t1 t2, t = t1 ++ t2 → authsThisSession t2 ≤ 1

/-- The trace is fine so far, and an `initializeApp` made in the current
session is remembered by the flag `firebaseInitialized`. -/
def SessionInv (firebaseInitialized : Bool) (t : List Event) : Prop :=
  sessionsOk t ∧ (authsThisSession t ≠ 0 → firebaseInitialized = true)

/-- The answer of the most recent `WiFi.status()` read in a trace, if there
was one. -/
def lastStatus : List Event → Option Bool
  | [] => none
  | Event.status connected :: _ => some connected
  | _ :: t => lastStatus t

/-- Number of `initializeApp` calls in a trace. -/
def initCalls (t : List Event) : Nat := t.count Event.initApp

/-- Number of `Database.set` calls in a trace. -/
def dbSets (t : List Event) : Nat := t.countP Event.isDbSet

/-- Number of `WiFi.disconnect(true)` calls in a trace. -/
def teardowns (t : List Event) : Nat := t.count Event.disconnect

/-! ## Round-robin demo (`1-minute-5-stage-code.cpp`) -/

namespace RoundRobin

/-- The enumeration `PowerMode`. -/
inductive PowerMode where
  | MODE_IDLE
  | MODE_ULTRASONIC
  | MODE_WIFI_ONLY
  | MODE_ULTRASONIC_WIFI_FIREBASE
  deriving DecidableEq, Repr

/-- Numeric value of an enumerator. -/
def PowerMode.toNat : PowerMode → Nat
  | MODE_IDLE => 0
  | MODE_ULTRASONIC => 1
  | MODE_WIFI_ONLY => 2
  | MODE_ULTRASONIC_WIFI_FIREBASE => 3

/-- The cast `(PowerMode) n` for the values the sketch casts, `0..3`. -/
def PowerMode.fromNat : Nat → PowerMode
  | 0 => MODE_IDLE
  | 1 => MODE_ULTRASONIC
  | 2 => MODE_WIFI_ONLY
  | _ => MODE_ULTRASONIC_WIFI_FIREBASE

/-- `MODE_DURATION`, 15 seconds. -/
def MODE_DURATION : Nat := 15000

/-- The globals of the sketch, the two function-local statics of `loop`,
and the world. -/
structure State where
  currentMode : PowerMode
  modeStartTime : Nat
  cycleCount : Int
  firebaseInitialized : Bool
  /-- `static unsigned long lastPrint` of the WiFi-only branch. -/
  lastPrint : Nat
  /-- `static unsigned long lastReading` of the full-operation branch. -/
  lastReading : Nat
  world : World
  deriving DecidableEq, Repr

/-- `readUltrasonic()`. The microsecond trigger pulse is below the clock
resolution and left out. -/
def readUltrasonic (env : Env) (w : World) : ℚ × World :=
  let (duration, w1) := pulseIn env w
  if duration = 0 then (-1, w1)
  else
    let distance : ℚ := (duration : ℚ) * 0.0343 / 2.0
    if distance < 2.0 ∨ distance > 400.0 then (-1, w1)
    else (distance, w1)

/-- The loop `while (WiFi.status() != WL_CONNECTED && attempts < 60)` of
`setupWiFi`, started with the given value of `attempts`; returns the final
value of `attempts`. -/
def setupWiFiLoop (env : Env) : Nat → Nat → World → Option (Nat × World)
  | 0, _, _ => none
  | fuel + 1, attempts, w =>
    let (connected, w1) := wifiStatus env w
    if connected = false ∧ attempts < 60 then
      let w2 := delay 500 w1
      let attempts1 := attempts + 1
      -- Serial.printf("Still trying (Status: %d)", WiFi.status())
      let w3 := if attempts1 % 20 = 0 then (wifiStatus env w2).2 else w2
      setupWiFiLoop env fuel attempts1 w3
    else some (attempts, w1)

/-- `setupWiFi()`. -/
def setupWiFi (env : Env) (fuel : Nat) (w : World) : Option World :=
  let (connected, w1) := wifiStatus env w
  if connected then some w1
  else
    let w2 := delay 500 (wifiModeOff (wifiDisconnect w1))
    let w3 := wifiBegin (wifiModeSta w2)
    match setupWiFiLoop env fuel 0 w3 with
    | none => none
    | some (_, w4) =>
      let (connected1, w5) := wifiStatus env w4
      if connected1 then some w5
      -- Serial.printf("Final Status Code: %d", WiFi.status())
      else some (wifiStatus env w5).2

/-- `disconnectWiFi()`. -/
def disconnectWiFi (env : Env) (w : World) : World :=
  let (connected, w1) := wifiStatus env w
  if connected then wifiModeOff (wifiDisconnect w1) else w1

/-- The action of the case `MODE_IDLE` of that `switch`: `disconnectWiFi();
firebaseInitialized = false;`. -/
def idleEntry (env : Env) (s : State) : State :=
  { s with world := disconnectWiFi env s.world, firebaseInitialized := false }

/-- The `switch` run on a mode change, on the mode just entered. -/
def enterMode (env : Env) (fuel : Nat) (s : State) : Option State :=
  let s0 := { s with world := emit (Event.banner s.currentMode.toNat) s.world }
  match s.currentMode with
  | PowerMode.MODE_IDLE => some (idleEntry env s0)
  | PowerMode.MODE_ULTRASONIC => some s0
  | PowerMode.MODE_WIFI_ONLY =>
    match setupWiFi env fuel s0.world with
    | none => none
    | some w => some { s0 with world := w }
  | PowerMode.MODE_ULTRASONIC_WIFI_FIREBASE =>
    let (connected, w1) := wifiStatus env s0.world
    match (if connected then some w1 else setupWiFi env fuel w1) with
    | none => none
    | some w2 =>
      let (connected1, w3) := wifiStatus env w2
      if connected1 = true ∧ s0.firebaseInitialized = false then
        some { s0 with world := emit Event.initApp w3, firebaseInitialized := true }
      else some { s0 with world := w3 }

/-- The first half of `loop()`: the mode change when the dwell time is over. -/
def transition (env : Env) (fuel : Nat) (currentTime : Nat) (s : State) : Option State :=
  if usub currentTime s.modeStartTime ≥ MODE_DURATION then
    let s1 := { s with
      currentMode := PowerMode.fromNat ((s.currentMode.toNat + 1) % 4),
      modeStartTime := currentTime }
    let s2 := if s1.currentMode = PowerMode.MODE_IDLE then
      { s1 with cycleCount := s1.cycleCount + 1 } else s1
    enterMode env fuel s2
  else some s

/-- The second half of `loop()`: the work of the current mode. -/
def modeBody (env : Env) (fuel : Nat) (currentTime : Nat) (s : State) : Option State :=
  match s.currentMode with
  | PowerMode.MODE_IDLE => some { s with world := delay 500 s.world }
  | PowerMode.MODE_ULTRASONIC =>
    let reading := readUltrasonic env s.world
    some { s with world := delay 1000 reading.2 }
  | PowerMode.MODE_WIFI_ONLY =>
    let w1 := delay 500 s.world
    if usub currentTime s.lastPrint ≥ 3000 then
      let (connected, w2) := wifiStatus env w1
      if connected then some { s with lastPrint := currentTime, world := w2 }
      else
        match setupWiFi env fuel w2 with
        | none => none
        | some w3 => some { s with lastPrint := currentTime, world := w3 }
    else some { s with world := w1 }
  | PowerMode.MODE_ULTRASONIC_WIFI_FIREBASE =>
    if usub currentTime s.lastReading ≥ 3000 then
      let (connected, w1) := wifiStatus env s.world
      if connected = false then
        match setupWiFi env fuel w1 with
        | none => none
        | some w2 =>
          some { s with lastReading := currentTime, world := w2, firebaseInitialized := false }
      else
        let reading := readUltrasonic env w1
        let distance : ℚ := if reading.1 < 0 then 100.0 else reading.1
        let (ready, w3) := appReady env reading.2
        if ready then
          some { s with
            lastReading := currentTime,
            world := emit (Event.dbSet [s.cycleCount, (millis w3 : Int)] "/distance" distance) w3 }
        else some { s with lastReading := currentTime, world := w3 }
    else some s

/-- One pass of `loop()`. -/
def loop (env : Env) (fuel : Nat) (s : State) : Option State :=
  let currentTime := millis s.world
  match transition env fuel currentTime s with
  | none => none
  | some s1 => modeBody env fuel currentTime s1

/-- Successive passes of `loop()`; before each pass the clock is moved to the
given time, so the list is the sequence of values `millis()` returns at the
top of the passes. -/
def run (env : Env) (fuel : Nat) : List Nat → State → Option State
  | [], s => some s
  | t :: ts, s =>
    match loop env fuel { s with world := { s.world with clock := t } } with
    | none => none
    | some s1 => run env fuel ts s1

/-- `setup()`: the globals keep their initialisers, `modeStartTime` is read
from the clock after the start-up delay. -/
def setup (w : World) : State :=
  let w1 := delay 1000 w
  { currentMode := PowerMode.MODE_IDLE, modeStartTime := millis w1, cycleCount := 1,
    firebaseInitialized := false, lastPrint := 0, lastReading := 0, world := w1 }

/-- A state of full operation: mode 3 entered at 46 s, link up, Firebase
initialised, nothing recorded yet. -/
def fullOperation : State :=
  { currentMode := PowerMode.MODE_ULTRASONIC_WIFI_FIREBASE, modeStartTime := 46000,
    cycleCount := 1, firebaseInitialized := true, lastPrint := 31000, lastReading := 0,
    world := { clock := 46000, polls := 0, radioOn := true, readyPolls := 0, pulses := 0,
               trace := [] } }

/-- What `WiFi.status() == WL_CONNECTED` would answer in this state. -/
def linkConnected (env : Env) (s : State) : Bool := (wifiStatus env s.world).1

/-- The flag `firebaseInitialized` is set only in full operation and only
while the most recent `WiFi.status()` read showed the link up. -/
def FlagInv (s : State) : Prop :=
  s.firebaseInitialized = true →
    s.currentMode = PowerMode.MODE_ULTRASONIC_WIFI_FIREBASE
    ∧ lastStatus s.world.trace = some true

/-- An environment in which the link is up for the first seven reads of
`WiFi.status()` and down from then on, Firebase is ready at every read and
the sensor always times out. -/
def dropEnv : Env :=
  { link := fun k => decide (k < 7), ready := fun _ => true, echo := fun _ => 0 }

/-- The mode that follows `m` in the rotation. -/
def next (m : PowerMode) : PowerMode := PowerMode.fromNat ((m.toNat + 1) % 4)

/-- The `n` modes entered by `n` successive mode changes that start in mode
`m`, oldest first. -/
def cycleFrom : PowerMode → Nat → List PowerMode
  | _, 0 => []
  | m, n + 1 => next m :: cycleFrom (next m) n

/-- The mode change of `loop()` is due at the time the world shows. -/
def due (s : State) : Prop := usub (millis s.world) s.modeStartTime ≥ MODE_DURATION

instance (s : State) : Decidable (due s) := by unfold due; infer_instance

end RoundRobin

/-! ## Deep-sleep pipeline (`power-strategy.cpp`) -/

namespace LowPower

/-- `SLEEP_DURATION = 290 * 1000000ULL`, stored in an `unsigned long`. -/
def SLEEP_DURATION : Nat := (290 * 1000000) % ULONG_MOD

/-- `AWAKE_TIMEOUT`, 10 seconds. -/
def AWAKE_TIMEOUT : Nat := 10000

/-- `MAX_WIFI_ATTEMPTS`. -/
def MAX_WIFI_ATTEMPTS : Nat := 20

/-- The three `RTC_DATA_ATTR` counters, which survive deep sleep, and the
world. -/
structure State where
  bootCount : Int
  successfulReadings : Int
  failedReadings : Int
  world : World
  deriving DecidableEq, Repr

/-- `readUltrasonic()`. -/
def readUltrasonic (env : Env) (w : World) : ℚ × World :=
  let (duration, w1) := pulseIn env w
  if duration = 0 then (-1, w1)
  else
    let distance : ℚ := (duration : ℚ) * 0.0343 / 2.0
    if distance < 2.0 ∨ distance > 400.0 then (-1, w1)
    else (distance, w1)

/-- `blinkLED(times)`: each blink holds the LED on and off for 100 ms. -/
def blinkLED : Nat → World → World
  | 0, w => w
  | times + 1, w => blinkLED times (delay 100 (delay 100 w))

/-- The loop `while (WiFi.status() != WL_CONNECTED && attempts <
MAX_WIFI_ATTEMPTS)` of `connectWiFi`; returns the final value of `attempts`. -/
def connectWiFiLoop (env : Env) : Nat → Nat → World → Option (Nat × World)
  | 0, _, _ => none
  | fuel + 1, attempts, w =>
    let (connected, w1) := wifiStatus env w
    if connected = false ∧ attempts < MAX_WIFI_ATTEMPTS then
      connectWiFiLoop env fuel (attempts + 1) (delay 500 w1)
    else some (attempts, w1)

/-- `connectWiFi()`. -/
def connectWiFi (env : Env) (fuel : Nat) (w : World) : Option (Bool × World) :=
  let w1 := wifiBegin (wifiModeSta w)
  match connectWiFiLoop env fuel 0 w1 with
  | none => none
  | some (_, w2) =>
    let (connected, w3) := wifiStatus env w2
    if connected then some (true, w3) else some (false, w3)

/-- The loop `while (!app.ready() && (millis() - authStart) < 8000)` of
`sendToFirebase`. -/
def authWaitLoop (env : Env) (authStart : Nat) : Nat → World → Option World
  | 0, _ => none
  | fuel + 1, w =>
    let (ready, w1) := appReady env w
    if ready = false ∧ usub (millis w1) authStart < 8000 then
      authWaitLoop env authStart fuel (delay 100 w1)
    else some w1

/-- `sendToFirebase(distance)`; `bootCount` is the global it reads. -/
def sendToFirebase (env : Env) (fuel : Nat) (bootCount : Int) (distance : ℚ) (w : World) :
    Option (Bool × World) :=
  let w1 := emit Event.initApp w
  let authStart := millis w1
  match authWaitLoop env authStart fuel w1 with
  | none => none
  | some w2 =>
    let (ready, w3) := appReady env w2
    if ready = false then some (false, w3)
    else
      let w4 := delay 100 (emit (Event.dbSet [bootCount] "/distance" distance) w3)
      let w5 := delay 100 (emit (Event.dbSet [bootCount] "/boot" bootCount) w4)
      let w6 := delay 100 (emit (Event.dbSet [bootCount] "/timestamp" (millis w5)) w5)
      some (true, w6)

/-- `enterDeepSleep()`. -/
def enterDeepSleep (w : World) : World :=
  emit Event.deepSleepStart (emit (Event.timerWakeup SLEEP_DURATION) (delay 100 w))

/-- `setup()`, the whole wake cycle. -/
def setup (env : Env) (fuel : Nat) (s : State) : Option State :=
  let w0 := delay 500 s.world
  let bootCount := s.bootCount + 1
  let reading := readUltrasonic env w0
  let distance : ℚ := if reading.1 < 0 then 100.0 else reading.1
  let w1 := blinkLED 1 reading.2
  match connectWiFi env fuel w1 with
  | none => none
  | some (wifiConnected, w2) =>
    if wifiConnected = false then
      let w3 := delay 100 (blinkLED 3 w2)
      some { s with
        bootCount := bootCount, failedReadings := s.failedReadings + 1,
        world := enterDeepSleep w3 }
    else
      let w3 := blinkLED 2 w2
      match sendToFirebase env fuel bootCount distance w3 with
      | none => none
      | some (sentSuccessfully, w4) =>
        let s1 : State :=
          if sentSuccessfully then
            { s with
              bootCount := bootCount, successfulReadings := s.successfulReadings + 1,
              world := blinkLED 4 w4 }
          else
            { s with
              bootCount := bootCount, failedReadings := s.failedReadings + 1,
              world := blinkLED 3 w4 }
        let w5 := wifiModeOff (wifiDisconnect s1.world)
        some { s1 with world := enterDeepSleep (delay 500 w5) }

/-- Waking from deep sleep: the sketch starts over with the clock at zero and
the radio off; the `RTC_DATA_ATTR` counters are kept. The answer streams of
the environment and the record of calls go on. -/
def wake (s : State) : State :=
  { s with world := { s.world with clock := 0, radioOn := false } }

/-- The given number of wake cycles in a row: wake, then `setup()` until it
enters deep sleep. -/
def cycles (env : Env) (fuel : Nat) : Nat → State → Option State
  | 0, s => some s
  | n + 1, s =>
    match setup env fuel (wake s) with
    | none => none
    | some s1 => cycles env fuel n s1

/-- The state of the counters at first power-on. -/
def firstBoot : State :=
  { bootCount := 0, successfulReadings := 0, failedReadings := 0, world := powerOn }

end LowPower

/-! ## Transmission-rate sweep (`transpassingrate.cpp`) -/

namespace RateSweep

/-- The enumeration `TransmissionMode`. -/
inductive TransmissionMode where
  | MODE_2HZ
  | MODE_1HZ
  | MODE_0_5HZ
  | MODE_0_33HZ
  | MODE_0_25HZ
  deriving DecidableEq, Repr

/-- Numeric value of an enumerator. -/
def TransmissionMode.toNat : TransmissionMode → Nat
  | MODE_2HZ => 0
  | MODE_1HZ => 1
  | MODE_0_5HZ => 2
  | MODE_0_33HZ => 3
  | MODE_0_25HZ => 4

/-- The cast `(TransmissionMode) n` for the values the sketch casts, `0..4`. -/
def TransmissionMode.fromNat : Nat → TransmissionMode
  | 0 => MODE_2HZ
  | 1 => MODE_1HZ
  | 2 => MODE_0_5HZ
  | 3 => MODE_0_33HZ
  | _ => MODE_0_25HZ

/-- `MODE_DURATION`, 60 seconds. -/
def MODE_DURATION : Nat := 60000

/-- The table `INTERVALS`, indexed by the mode. -/
def INTERVALS : TransmissionMode → Nat
  | TransmissionMode.MODE_2HZ => 500
  | TransmissionMode.MODE_1HZ => 1000
  | TransmissionMode.MODE_0_5HZ => 2000
  | TransmissionMode.MODE_0_33HZ => 3000
  | TransmissionMode.MODE_0_25HZ => 4000

/-- The globals of the sketch, the function-local static `lastSend` of
`loop`, and the world. -/
structure State where
  currentMode : TransmissionMode
  modeStartTime : Nat
  modeCount : Int
  readingCount : Int
  /-- `static unsigned long lastSend`. -/
  lastSend : Nat
  world : World
  deriving DecidableEq, Repr

/-- `readUltrasonic()`. -/
def readUltrasonic (env : Env) (w : World) : ℚ × World :=
  let (duration, w1) := pulseIn env w
  if duration = 0 then (-1, w1)
  else
    let distance : ℚ := (duration : ℚ) * 0.0343 / 2.0
    if distance < 2.0 ∨ distance > 400.0 then (-1, w1)
    else (distance, w1)

/-- The loop `while (WiFi.status() != WL_CONNECTED && attempts < 60)` of
`setupWiFi`; returns the final value of `attempts`. -/
def setupWiFiLoop (env : Env) : Nat → Nat → World → Option (Nat × World)
  | 0, _, _ => none
  | fuel + 1, attempts, w =>
    let (connected, w1) := wifiStatus env w
    if connected = false ∧ attempts < 60 then
      setupWiFiLoop env fuel (attempts + 1) (delay 500 w1)
    else some (attempts, w1)

/-- `setupWiFi()`. -/
def setupWiFi (env : Env) (fuel : Nat) (w : World) : Option World :=
  let (connected, w1) := wifiStatus env w
  if connected then some w1
  else
    let w2 := delay 500 (wifiModeOff (wifiDisconnect w1))
    let w3 := wifiBegin (wifiModeSta w2)
    match setupWiFiLoop env fuel 0 w3 with
    | none => none
    | some (_, w4) => some (wifiStatus env w4).2

/-- The loop `while(1) delay(1000);` with which `setup` stops the sketch: it
has no exit, so no amount of fuel yields a result. -/
def halt : Nat → World → Option State
  | 0, _ => none
  | fuel + 1, w => halt fuel (delay 1000 w)

/-- The loop `while (!app.ready() && attempts < 30)` of `setup`; returns the
final value of `attempts`. -/
def authWaitLoop (env : Env) : Nat → Nat → World → Option (Nat × World)
  | 0, _, _ => none
  | fuel + 1, attempts, w =>
    let (ready, w1) := appReady env w
    if ready = false ∧ attempts < 30 then
      authWaitLoop env fuel (attempts + 1) (delay 1000 w1)
    else some (attempts, w1)

/-- `setup()`. -/
def setup (env : Env) (fuel : Nat) (w : World) : Option State :=
  let w1 := delay 1000 w
  match setupWiFi env fuel w1 with
  | none => none
  | some w2 =>
    let (connected, w3) := wifiStatus env w2
    if connected = false then halt fuel w3
    else
      let w4 := emit Event.initApp w3
      match authWaitLoop env fuel 0 w4 with
      | none => none
      | some (_, w5) =>
        let (ready, w6) := appReady env w5
        if ready = false then halt fuel w6
        else
          let w7 := delay 2000 w6
          some { currentMode := TransmissionMode.MODE_2HZ, modeStartTime := millis w7,
                 modeCount := 1, readingCount := 0, lastSend := 0, world := w7 }

/-- The first half of `loop()`: the move to the next mode when the mode has
run its duration. -/
def transition (currentTime : Nat) (s : State) : State :=
  if usub currentTime s.modeStartTime ≥ MODE_DURATION then
    let w1 := delay 10000 s.world
    let mode := TransmissionMode.fromNat ((s.currentMode.toNat + 1) % 5)
    if mode = TransmissionMode.MODE_2HZ ∧ s.modeCount ≥ 5 then
      { s with
        currentMode := mode, modeCount := 0 + 1, readingCount := 0,
        modeStartTime := currentTime, world := delay 30000 (emit Event.allDone w1) }
    else
      { s with
        currentMode := mode, modeCount := s.modeCount + 1, readingCount := 0,
        modeStartTime := currentTime, world := w1 }
  else s

/-- The second half of `loop()`: one reading sent when the interval of the
current mode has passed. -/
def send (env : Env) (currentTime : Nat) (s : State) : State :=
  if usub currentTime s.lastSend ≥ INTERVALS s.currentMode then
    let readingCount := s.readingCount + 1
    let reading := readUltrasonic env s.world
    let distance : ℚ := if reading.1 < 0 then 100.0 else reading.1
    let w1 := emit (Event.dbSet [s.modeCount, readingCount] "/distance" distance) reading.2
    let w2 := emit (Event.dbSet [s.modeCount, readingCount] "/timestamp" (millis w1)) w1
    { s with lastSend := currentTime, readingCount := readingCount, world := w2 }
  else s

/-- One pass of `loop()`. -/
def loop (env : Env) (s : State) : State :=
  let currentTime := millis s.world
  let s1 := send env currentTime (transition currentTime s)
  { s1 with world := delay 10 s1.world }

/-- Successive passes of `loop()`; before each pass the clock is moved to the
given time. -/
def run (env : Env) : List Nat → State → State
  | [], s => s
  | t :: ts, s => run env ts (loop env { s with world := { s.world with clock := t } })

/-- The path `"/power_test/mode_" + String(modeCount) + "/reading_" +
String(readingCount)` of a reading. -/
def path (modeCount readingCount : Int) : String :=
  "/power_test/mode_" ++ toString modeCount ++ "/reading_" ++ toString readingCount

/-- The keys of the readings uploaded in a trace, newest first: the path of
each `Database.set` of a distance. -/
def uploadPaths : List Event → List String
  | [] => []
  | Event.dbSet ids leaf _ :: t =>
    if leaf = "/distance" then path (ids.getD 0 0) (ids.getD 1 0) :: uploadPaths t
    else uploadPaths t
  | _ :: t => uploadPaths t

/-- Number of times the sweep had been completed and restarted (`ALL TESTS
COMPLETED!`) in a trace. -/
def restarts (t : List Event) : Nat := t.count Event.allDone

/-- The readings uploaded in a trace, newest first, each with the number of
restarts of the sweep before it and the numbers its path is built from. -/
def sweepKeys : List Event → List (Nat × List Int)
  | [] => []
  | Event.dbSet ids leaf _ :: t =>
    if leaf = "/distance" then (restarts t, ids) :: sweepKeys t else sweepKeys t
  | _ :: t => sweepKeys t

/-- The uploaded readings are pairwise distinct as (restarts, path numbers),
and those of the current sweep lie at or below the current mode counter and
reading counter. -/
def KeysInv (s : State) : Prop :=
  (sweepKeys s.world.trace).Nodup
  ∧ ∀ p ∈ sweepKeys s.world.trace, p.1 ≤ restarts s.world.trace
      ∧ (p.1 = restarts s.world.trace →
          ∃ m r, p.2 = [m, r] ∧ (m < s.modeCount ∨ (m = s.modeCount ∧ r ≤ s.readingCount)))

/-- An environment in which the link is up and Firebase ready at every read
and the sensor always times out. -/
def blindEnv : Env :=
  { link := fun _ => true, ready := fun _ => true, echo := fun _ => 0 }

/-- The state in which `setup` leaves the sketch when started at power-on in
the live environment. -/
def afterSetup : State :=
  { currentMode := TransmissionMode.MODE_2HZ, modeStartTime := 3500, modeCount := 1,
    readingCount := 0, lastSend := 0,
    world :=
      { clock := 3500, polls := 4, radioOn := true, readyPolls := 2, pulses := 0,
        trace := [Event.ready true, Event.ready true, Event.initApp, Event.status true,
          Event.status true, Event.status true, Event.wifiBegin, Event.modeSta,
          Event.modeOff, Event.disconnect, Event.status false] } }

/-- The `Database.set` calls of readings `n, n-1, ..., 1` of the mode numbered
`modeCount`, newest first: each reading writes its distance and then its
timestamp. -/
def readingKeys (modeCount : Int) : Nat → List (List Int × String)
  | 0 => []
  | n + 1 =>
    ([modeCount, ((n + 1 : Nat) : Int)], "/timestamp")
      :: ([modeCount, ((n + 1 : Nat) : Int)], "/distance") :: readingKeys modeCount n

end RateSweep

/-! ## Facts about traces -/

theorem banners_append_wifi (evs t : List Event) (h : ∀ e ∈ evs, e.isWiFi = true) :
    banners (evs ++ t) = banners t := by
  induction evs with
  | nil => rfl
  | cons e evs ih =>
    have he := h e (List.mem_cons_self _ _)
    have ih1 := ih (fun x hx => h x (List.mem_cons_of_mem _ hx))
    cases e <;> simp_all [banners, Event.isWiFi]

theorem wifi_ne_initApp (evs : List Event) (h : ∀ e ∈ evs, e.isWiFi = true) :
    ∀ e ∈ evs, e ≠ Event.initApp := by
  intro e he hi
  have := h e he
  rw [hi] at this
  exact absurd this (by decide)

theorem auths_cons_le (e : Event) (t : List Event) (h : e ≠ Event.initApp) :
    authsThisSession (e :: t) ≤ authsThisSession t := by
  cases e with
  | status c => cases c <;> simp [authsThisSession]
  | initApp => exact absurd rfl h
  | _ => simp [authsThisSession]

theorem auths_append_le (evs t : List Event) (h : ∀ e ∈ evs, e ≠ Event.initApp) :
    authsThisSession (evs ++ t) ≤ authsThisSession t := by
  induction evs with
  | nil => exact le_refl _
  | cons e evs ih =>
    exact le_trans (auths_cons_le e _ (h e (List.mem_cons_self _ _)))
      (ih (fun x hx => h x (List.mem_cons_of_mem _ hx)))

theorem sessionsOk_nil : sessionsOk [] := by
  intro t1 t2 h
  have h2 : t2 = [] := (List.append_eq_nil.1 h.symm).2
  subst h2
  exact Nat.zero_le _

theorem sessionsOk_cons (e : Event) (t : List Event) (h : sessionsOk t)
    (he : authsThisSession (e :: t) ≤ 1) : sessionsOk (e :: t) := by
  intro t1 t2 heq
  cases t1 with
  | nil =>
    simp only [List.nil_append] at heq
    rw [← heq]; exact he
  | cons a t1 =>
    simp only [List.cons_append, List.cons.injEq] at heq
    exact h t1 t2 heq.2

theorem sessionsOk_append (evs t : List Event) (h : sessionsOk t)
    (hn : ∀ e ∈ evs, e ≠ Event.initApp) : sessionsOk (evs ++ t) := by
  induction evs with
  | nil => exact h
  | cons e evs ih =>
    have hn1 : ∀ x ∈ evs, x ≠ Event.initApp := fun x hx => hn x (List.mem_cons_of_mem _ hx)
    refine sessionsOk_cons e _ (ih hn1) ?_
    exact le_trans (auths_cons_le e _ (hn e (List.mem_cons_self _ _)))
      (le_trans (auths_append_le evs t hn1) (h [] t rfl))

theorem initCalls_append (evs t : List Event) (hn : ∀ e ∈ evs, e ≠ Event.initApp) :
    initCalls (evs ++ t) = initCalls t := by
  unfold initCalls
  rw [List.count_append, List.count_eq_zero.2 (fun hm => hn _ hm rfl), Nat.zero_add]

theorem sessionInv_append (fb : Bool) (evs t : List Event) (h : SessionInv fb t)
    (hn : ∀ e ∈ evs, e ≠ Event.initApp) : SessionInv fb (evs ++ t) := by
  refine ⟨sessionsOk_append evs t h.1 hn, fun h0 => h.2 (fun hz => h0 ?_)⟩
  have := auths_append_le evs t hn
  omega

theorem sessionInv_reset (fb : Bool) (evs t : List Event) (h : sessionsOk t)
    (hn : ∀ e ∈ evs, e ≠ Event.initApp) (h0 : authsThisSession t = 0) :
    SessionInv fb (evs ++ t) := by
  refine ⟨sessionsOk_append evs t h hn, fun hne => absurd ?_ hne⟩
  have := auths_append_le evs t hn
  omega

theorem sessionInv_init (t : List Event) (h : SessionInv false t) :
    SessionInv true (Event.initApp :: t) := by
  have h0 : authsThisSession t = 0 := by
    by_contra hne
    exact absurd (h.2 hne) (by decide)
  refine ⟨sessionsOk_cons _ _ h.1 ?_, fun _ => rfl⟩
  simp [authsThisSession, h0]

namespace RoundRobin

/-! ## Round-robin: the connection loop is bounded -/

theorem rr_setupWiFiLoop_spec (env : Env) (fuel : Nat) :
    ∀ (attempts : Nat) (w : World), 60 - attempts < fuel →
      ∃ a1 w1 evs, setupWiFiLoop env fuel attempts w = some (a1, w1)
        ∧ w1.trace = evs ++ w.trace ∧ (∀ e ∈ evs, e.isWiFi = true)
        ∧ attempts ≤ a1 ∧ a1 ≤ max attempts 60
        ∧ w1.polls = w.polls + (a1 - attempts) + 1 + (a1 / 20 - attempts / 20)
        ∧ w1.clock = w.clock + 500 * (a1 - attempts)
        ∧ w1.readyPolls = w.readyPolls ∧ w1.pulses = w.pulses := by
  induction fuel with
  | zero => intro attempts w h; omega
  | succ fuel ih =>
    intro attempts w h
    unfold setupWiFiLoop
    by_cases hc : (wifiStatus env w).1 = false ∧ attempts < 60
    · simp only [hc, and_self, if_true]
      by_cases h20 : (attempts + 1) % 20 = 0
      · simp only [h20, if_true]
        obtain ⟨a1, w1, evs, h1, h2, h3, h4, h5, h6, h7, h8, h9⟩ :=
          ih (attempts + 1) (wifiStatus env (delay 500 (wifiStatus env w).2)).2 (by omega)
        refine ⟨a1, w1, evs ++ [Event.status (wifiStatus env (delay 500 (wifiStatus env w).2)).1,
          Event.status (wifiStatus env w).1], h1, ?_, ?_, by omega, by omega,
          ?_, ?_, ?_, ?_⟩
        · rw [h2]; simp [wifiStatus, delay]
        · intro e he
          simp only [List.mem_append, List.mem_cons, List.mem_singleton, List.not_mem_nil,
            or_false] at he
          rcases he with he | he | he
          · exact h3 e he
          · subst he; rfl
          · subst he; rfl
        · rw [h6]; simp [wifiStatus, delay]; omega
        · rw [h7]; simp [wifiStatus, delay]; omega
        · rw [h8]; simp [wifiStatus, delay]
        · rw [h9]; simp [wifiStatus, delay]
      · simp only [h20, if_false]
        obtain ⟨a1, w1, evs, h1, h2, h3, h4, h5, h6, h7, h8, h9⟩ :=
          ih (attempts + 1) (delay 500 (wifiStatus env w).2) (by omega)
        refine ⟨a1, w1, evs ++ [Event.status (wifiStatus env w).1], h1, ?_, ?_, by omega, by omega,
          ?_, ?_, ?_, ?_⟩
        · rw [h2]; simp [wifiStatus, delay]
        · intro e he
          simp only [List.mem_append, List.mem_singleton] at he
          rcases he with he | he
          · exact h3 e he
          · subst he; rfl
        · rw [h6]; simp [wifiStatus, delay]; omega
        · rw [h7]; simp [wifiStatus, delay]; omega
        · rw [h8]; simp [wifiStatus, delay]
        · rw [h9]; simp [wifiStatus, delay]
    · simp only [hc, if_false]
      refine ⟨attempts, (wifiStatus env w).2, [Event.status (wifiStatus env w).1], rfl, ?_, ?_, le_refl _,
        le_max_left _ _, ?_, ?_, ?_, ?_⟩
      · simp [wifiStatus]
      · intro e he
        simp only [List.mem_singleton] at he
        subst he; rfl
      · simp [wifiStatus]
      · simp [wifiStatus]
      · simp [wifiStatus]
      · simp [wifiStatus]

theorem rr_setupWiFi_spec (env : Env) (fuel : Nat) (hfuel : 61 ≤ fuel) (w : World) :
    ∃ w1 evs, setupWiFi env fuel w = some w1
      ∧ w1.trace = evs ++ w.trace ∧ (∀ e ∈ evs, e.isWiFi = true)
      ∧ w.polls < w1.polls ∧ w1.polls ≤ w.polls + 67
      ∧ w.clock ≤ w1.clock ∧ w1.clock ≤ w.clock + 30500
      ∧ w1.readyPolls = w.readyPolls ∧ w1.pulses = w.pulses := by
  unfold setupWiFi
  by_cases hc : (wifiStatus env w).1 = true
  · simp only [hc, if_true]
    refine ⟨_, [Event.status (wifiStatus env w).1], rfl, ?_, ?_, ?_, ?_, ?_, ?_, ?_, ?_⟩
    · simp [wifiStatus]
    · intro e he
      simp only [List.mem_singleton] at he
      subst he; rfl
    all_goals simp [wifiStatus]
  · simp only [hc]
    obtain ⟨a1, w4, evs, h1, h2, h3, h4, h5, h6, h7, h8, h9⟩ :=
      rr_setupWiFiLoop_spec env fuel 0
        (wifiBegin (wifiModeSta (delay 500 (wifiModeOff (wifiDisconnect (wifiStatus env w).2)))))
        (by omega)
    simp only [h1]
    have ha : a1 ≤ 60 := by simpa using h5
    have hd : a1 / 20 ≤ 3 := by omega
    by_cases hc1 : (wifiStatus env w4).1 = true
    · simp only [hc1, if_true]
      refine ⟨_, Event.status (wifiStatus env w4).1 :: (evs ++ [Event.wifiBegin, Event.modeSta,
        Event.modeOff, Event.disconnect, Event.status (wifiStatus env w).1]), rfl,
        ?_, ?_, ?_, ?_, ?_, ?_, ?_, ?_⟩
      · simp [wifiStatus, h2, wifiBegin, wifiModeSta, wifiModeOff, wifiDisconnect, delay]
      · intro e he
        simp only [List.mem_cons, List.mem_append, List.mem_singleton, List.not_mem_nil,
          or_false] at he
        rcases he with he | he | he | he | he | he | he
        · subst he; rfl
        · exact h3 e he
        all_goals (subst he; rfl)
      · simp [wifiStatus, h6, wifiBegin, wifiModeSta, wifiModeOff, wifiDisconnect, delay]; omega
      · simp [wifiStatus, h6, wifiBegin, wifiModeSta, wifiModeOff, wifiDisconnect, delay]; omega
      · simp [wifiStatus, h7, wifiBegin, wifiModeSta, wifiModeOff, wifiDisconnect, delay]; omega
      · simp [wifiStatus, h7, wifiBegin, wifiModeSta, wifiModeOff, wifiDisconnect, delay]; omega
      · simp [wifiStatus, h8, wifiBegin, wifiModeSta, wifiModeOff, wifiDisconnect, delay]
      · simp [wifiStatus, h9, wifiBegin, wifiModeSta, wifiModeOff, wifiDisconnect, delay]
    · simp only [hc1]
      refine ⟨_, Event.status (wifiStatus env (wifiStatus env w4).2).1 ::
        Event.status (wifiStatus env w4).1 :: (evs ++ [Event.wifiBegin, Event.modeSta,
        Event.modeOff, Event.disconnect, Event.status (wifiStatus env w).1]), rfl,
        ?_, ?_, ?_, ?_, ?_, ?_, ?_, ?_⟩
      · simp [wifiStatus, h2, wifiBegin, wifiModeSta, wifiModeOff, wifiDisconnect, delay]
      · intro e he
        simp only [List.mem_cons, List.mem_append, List.mem_singleton, List.not_mem_nil,
          or_false] at he
        rcases he with he | he | he | he | he | he | he | he
        · subst he; rfl
        · subst he; rfl
        · exact h3 e he
        all_goals (subst he; rfl)
      · simp [wifiStatus, h6, wifiBegin, wifiModeSta, wifiModeOff, wifiDisconnect, delay]; omega
      · simp [wifiStatus, h6, wifiBegin, wifiModeSta, wifiModeOff, wifiDisconnect, delay]; omega
      · simp [wifiStatus, h7, wifiBegin, wifiModeSta, wifiModeOff, wifiDisconnect, delay]; omega
      · simp [wifiStatus, h7, wifiBegin, wifiModeSta, wifiModeOff, wifiDisconnect, delay]; omega
      · simp [wifiStatus, h8, wifiBegin, wifiModeSta, wifiModeOff, wifiDisconnect, delay]
      · simp [wifiStatus, h9, wifiBegin, wifiModeSta, wifiModeOff, wifiDisconnect, delay]

/-! ## Round-robin: what one pass of `loop()` does to the mode and the cycle counter -/

theorem rr_readUltrasonic_world (env : Env) (w : World) :
    (readUltrasonic env w).2 = (pulseIn env w).2 := by
  unfold readUltrasonic
  simp only
  split
  · rfl
  · split <;> rfl

theorem rr_enterMode_spec (env : Env) (fuel : Nat) (hfuel : 61 ≤ fuel) (s : State) :
    ∃ s1, enterMode env fuel s = some s1
      ∧ s1.currentMode = s.currentMode ∧ s1.cycleCount = s.cycleCount
      ∧ s1.modeStartTime = s.modeStartTime
      ∧ banners s1.world.trace = s.currentMode.toNat :: banners s.world.trace := by
  obtain ⟨m, mst, cc, fb, lp, lr, w⟩ := s
  unfold enterMode
  cases m
  · refine ⟨_, rfl, rfl, rfl, rfl, ?_⟩
    simp only [idleEntry, disconnectWiFi]
    split <;> simp [wifiStatus, wifiModeOff, wifiDisconnect, emit, banners]
  · refine ⟨_, rfl, rfl, rfl, rfl, ?_⟩
    simp [emit, banners]
  · obtain ⟨w1, evs, h1, h2, h3, -⟩ :=
      rr_setupWiFi_spec env fuel hfuel (emit (Event.banner PowerMode.MODE_WIFI_ONLY.toNat) w)
    simp only [h1]
    refine ⟨_, rfl, rfl, rfl, rfl, ?_⟩
    simp only [h2]
    rw [banners_append_wifi _ _ h3]
    simp [emit, banners]
  · simp only
    rcases Bool.eq_false_or_eq_true (wifiStatus env
        (emit (Event.banner PowerMode.MODE_ULTRASONIC_WIFI_FIREBASE.toNat) w)).1 with hc | hc
    · simp only [hc, if_true]
      by_cases hi : (wifiStatus env (wifiStatus env
          (emit (Event.banner PowerMode.MODE_ULTRASONIC_WIFI_FIREBASE.toNat) w)).2).1 = true
          ∧ fb = false
      · simp only [hi, and_self, if_true]
        refine ⟨_, rfl, rfl, rfl, rfl, ?_⟩
        simp [emit, banners, wifiStatus]
      · simp only [hi, if_false]
        refine ⟨_, rfl, rfl, rfl, rfl, ?_⟩
        simp [emit, banners, wifiStatus]
    · simp only [hc, Bool.false_eq_true, if_false]
      obtain ⟨w1, evs, h1, h2, h3, -⟩ := rr_setupWiFi_spec env fuel hfuel
        (wifiStatus env (emit (Event.banner PowerMode.MODE_ULTRASONIC_WIFI_FIREBASE.toNat) w)).2
      simp only [h1]
      by_cases hi : (wifiStatus env w1).1 = true ∧ fb = false
      · simp only [hi, and_self, if_true]
        refine ⟨_, rfl, rfl, rfl, rfl, ?_⟩
        simp only [emit, wifiStatus, banners, h2]
        rw [banners_append_wifi _ _ h3]
        simp [emit, banners, wifiStatus]
      · simp only [hi, if_false]
        refine ⟨_, rfl, rfl, rfl, rfl, ?_⟩
        simp only [emit, wifiStatus, banners, h2]
        rw [banners_append_wifi _ _ h3]
        simp [emit, banners, wifiStatus]

theorem rr_modeBody_spec (env : Env) (fuel : Nat) (hfuel : 61 ≤ fuel) (t : Nat) (s : State) :
    ∃ s1, modeBody env fuel t s = some s1
      ∧ s1.currentMode = s.currentMode ∧ s1.cycleCount = s.cycleCount
      ∧ s1.modeStartTime = s.modeStartTime
      ∧ banners s1.world.trace = banners s.world.trace := by
  obtain ⟨m, mst, cc, fb, lp, lr, w⟩ := s
  unfold modeBody
  cases m
  · exact ⟨_, rfl, rfl, rfl, rfl, by simp [delay]⟩
  · refine ⟨_, rfl, rfl, rfl, rfl, ?_⟩
    simp [rr_readUltrasonic_world, pulseIn, delay, banners]
  · simp only
    by_cases hd : usub t lp ≥ 3000
    · simp only [hd, if_true]
      rcases Bool.eq_false_or_eq_true (wifiStatus env (delay 500 w)).1 with hc | hc
      · simp only [hc, if_true]
        exact ⟨_, rfl, rfl, rfl, rfl, by simp [wifiStatus, delay, banners]⟩
      · simp only [hc, Bool.false_eq_true, if_false]
        obtain ⟨w1, evs, h1, h2, h3, -⟩ :=
          rr_setupWiFi_spec env fuel hfuel (wifiStatus env (delay 500 w)).2
        simp only [h1]
        refine ⟨_, rfl, rfl, rfl, rfl, ?_⟩
        simp only [h2]
        rw [banners_append_wifi _ _ h3]
        simp [wifiStatus, delay, banners]
    · simp only [hd, if_false]
      exact ⟨_, rfl, rfl, rfl, rfl, by simp [delay]⟩
  · simp only
    by_cases hd : usub t lr ≥ 3000
    · simp only [hd, if_true]
      rcases Bool.eq_false_or_eq_true (wifiStatus env w).1 with hc | hc
      · simp only [hc, Bool.true_eq_false, if_false]
        by_cases hr : (appReady env (readUltrasonic env (wifiStatus env w).2).2).1 = true
        · simp only [hr, if_true]
          refine ⟨_, rfl, rfl, rfl, rfl, ?_⟩
          simp [rr_readUltrasonic_world, pulseIn, appReady, emit, wifiStatus, banners]
        · simp only [hr, if_false]
          refine ⟨_, rfl, rfl, rfl, rfl, ?_⟩
          simp [rr_readUltrasonic_world, pulseIn, appReady, emit, wifiStatus, banners]
      · simp only [hc, if_true]
        obtain ⟨w1, evs, h1, h2, h3, -⟩ := rr_setupWiFi_spec env fuel hfuel (wifiStatus env w).2
        simp only [h1]
        refine ⟨_, rfl, rfl, rfl, rfl, ?_⟩
        simp only [h2]
        rw [banners_append_wifi _ _ h3]
        simp [wifiStatus, banners]
    · simp only [hd, if_false]
      exact ⟨_, rfl, rfl, rfl, rfl, rfl⟩

theorem rr_loop_spec (env : Env) (fuel : Nat) (hfuel : 61 ≤ fuel) (s : State) :
    ∃ s1, loop env fuel s = some s1
      ∧ (due s →
          s1.currentMode = PowerMode.fromNat ((s.currentMode.toNat + 1) % 4)
          ∧ (s1.currentMode = PowerMode.MODE_IDLE → s1.cycleCount = s.cycleCount + 1)
          ∧ (s1.currentMode ≠ PowerMode.MODE_IDLE → s1.cycleCount = s.cycleCount)
          ∧ s1.modeStartTime = millis s.world
          ∧ banners s1.world.trace = s1.currentMode.toNat :: banners s.world.trace)
      ∧ (¬ due s →
          s1.currentMode = s.currentMode ∧ s1.cycleCount = s.cycleCount
          ∧ s1.modeStartTime = s.modeStartTime
          ∧ banners s1.world.trace = banners s.world.trace) := by
  unfold loop transition
  by_cases hd : usub (millis s.world) s.modeStartTime ≥ MODE_DURATION
  · simp only [hd, if_true]
    by_cases hi : PowerMode.fromNat ((s.currentMode.toNat + 1) % 4) = PowerMode.MODE_IDLE
    · simp only [hi, if_true]
      obtain ⟨s1, h1, h2, h3, h4, h5⟩ := rr_enterMode_spec env fuel hfuel
        { s with currentMode := PowerMode.MODE_IDLE, modeStartTime := millis s.world,
                 cycleCount := s.cycleCount + 1 }
      obtain ⟨s2, g1, g2, g3, g4, g5⟩ := rr_modeBody_spec env fuel hfuel (millis s.world) s1
      simp only [h1, g1]
      refine ⟨s2, rfl, fun _ => ?_, fun hn => absurd hd hn⟩
      simp only [g2, g3, g4, g5, h2, h3, h4, h5]
      exact ⟨trivial, fun _ => trivial, fun h => absurd rfl h, trivial, trivial⟩
    · simp only [hi, if_false]
      obtain ⟨s1, h1, h2, h3, h4, h5⟩ := rr_enterMode_spec env fuel hfuel
        { s with currentMode := PowerMode.fromNat ((s.currentMode.toNat + 1) % 4),
                 modeStartTime := millis s.world }
      obtain ⟨s2, g1, g2, g3, g4, g5⟩ := rr_modeBody_spec env fuel hfuel (millis s.world) s1
      simp only [h1, g1]
      refine ⟨s2, rfl, fun _ => ?_, fun hn => absurd hd hn⟩
      simp only [g2, g3, g4, g5, h2, h3, h4, h5]
      exact ⟨trivial, fun h => absurd h hi, fun _ => trivial, trivial, trivial⟩
  · simp only [hd, if_false]
    obtain ⟨s2, g1, g2, g3, g4, g5⟩ := rr_modeBody_spec env fuel hfuel (millis s.world) s
    simp only [g1]
    exact ⟨s2, rfl, fun h => absurd h hd, fun _ => ⟨g2, g3, g4, g5⟩⟩

theorem cycleFrom_drop (m : PowerMode) (n i : Nat) :
    (cycleFrom m n).drop i = cycleFrom (next^[i] m) (n - i) := by
  induction i generalizing m n with
  | zero => simp
  | succ i ih =>
    cases n with
    | zero => simp [cycleFrom]
    | succ n =>
      simp only [cycleFrom, List.drop_succ_cons, Function.iterate_succ_apply]
      rw [ih]
      congr 1
      omega

theorem cycleFrom_take_four (m : PowerMode) (k : Nat) :
    (cycleFrom m (k + 4)).take 4 = cycleFrom m 4 := by
  simp [cycleFrom]

theorem cycleFrom_four_perm (m : PowerMode) :
    (cycleFrom m 4).Perm [PowerMode.MODE_IDLE, PowerMode.MODE_ULTRASONIC,
      PowerMode.MODE_WIFI_ONLY, PowerMode.MODE_ULTRASONIC_WIFI_FIREBASE] := by
  cases m <;> decide

theorem cycleFrom_window (m : PowerMode) (n i : Nat) (h : i + 4 ≤ n) :
    (((cycleFrom m n).drop i).take 4).Perm [PowerMode.MODE_IDLE, PowerMode.MODE_ULTRASONIC,
      PowerMode.MODE_WIFI_ONLY, PowerMode.MODE_ULTRASONIC_WIFI_FIREBASE] := by
  rw [cycleFrom_drop]
  obtain ⟨k, hk⟩ : ∃ k, n - i = k + 4 := ⟨n - i - 4, by omega⟩
  rw [hk, cycleFrom_take_four]
  exact cycleFrom_four_perm _

theorem rr_run_spec (env : Env) (fuel : Nat) (hfuel : 61 ≤ fuel) (ts : List Nat) :
    ∀ s : State, ∃ s1 n, run env fuel ts s = some s1 ∧ n ≤ ts.length
      ∧ s1.currentMode = next^[n] s.currentMode
      ∧ banners s1.world.trace
          = ((cycleFrom s.currentMode n).map PowerMode.toNat).reverse ++ banners s.world.trace
      ∧ s1.cycleCount
          = s.cycleCount + ((cycleFrom s.currentMode n).count PowerMode.MODE_IDLE : Nat) := by
  induction ts with
  | nil => intro s; exact ⟨s, 0, rfl, le_refl _, rfl, by simp [cycleFrom], by simp [cycleFrom]⟩
  | cons t ts ih =>
    intro s
    obtain ⟨s1, h1, hdue, hnot⟩ :=
      rr_loop_spec env fuel hfuel { s with world := { s.world with clock := t } }
    obtain ⟨s2, n, g1, g2, g3, g4, g5⟩ := ih s1
    by_cases hd : due { s with world := { s.world with clock := t } }
    · obtain ⟨a1, a2, a3, -, a5⟩ := hdue hd
      have hm : s1.currentMode = next s.currentMode := a1
      refine ⟨s2, n + 1, ?_, ?_, ?_, ?_, ?_⟩
      · simp only [run, h1, g1]
      · simp only [List.length_cons]; omega
      · rw [g3, hm, Function.iterate_succ_apply]
      · rw [g4, a5, hm]
        simp [cycleFrom]
      · rw [g5, hm]
        by_cases hi : next s.currentMode = PowerMode.MODE_IDLE
        · rw [a2 (hm.trans hi)]
          simp [cycleFrom, hi]
          ring
        · rw [a3 (fun h => hi (hm.symm.trans h))]
          simp only [cycleFrom]
          rw [List.count_cons_of_ne (fun h => hi h.symm)]
    · obtain ⟨a1, a2, -, a5⟩ := hnot hd
      refine ⟨s2, n, ?_, ?_, ?_, ?_, ?_⟩
      · simp only [run, h1, g1]
      · simp only [List.length_cons]; omega
      · rw [g3, a1]
      · rw [g4, a5, a1]
      · rw [g5, a2, a1]

/-! ## Round-robin: authentication and connectivity sessions -/

theorem rr_enterMode_session (env : Env) (fuel : Nat) (hfuel : 61 ≤ fuel) (s : State)
    (hinv : SessionInv s.firebaseInitialized s.world.trace) :
    ∃ s1, enterMode env fuel s = some s1
      ∧ SessionInv s1.firebaseInitialized s1.world.trace := by
  obtain ⟨m, mst, cc, fb, lp, lr, w⟩ := s
  simp only at hinv
  unfold enterMode
  cases m
  · refine ⟨_, rfl, ?_⟩
    simp only [idleEntry, disconnectWiFi]
    rcases Bool.eq_false_or_eq_true (wifiStatus env
        (emit (Event.banner PowerMode.MODE_IDLE.toNat) w)).1 with hc | hc
    · simp only [hc, if_true]
      simp only [wifiStatus, emit] at hc
      simp only [wifiStatus, emit, wifiModeOff, wifiDisconnect, hc]
      exact sessionInv_reset _ [Event.modeOff] _
        (sessionsOk_append [Event.disconnect, Event.status true, Event.banner _] _ hinv.1
          (by simp)) (by simp) (by simp [authsThisSession])
    · simp only [hc, Bool.false_eq_true, if_false]
      simp only [wifiStatus, emit] at hc
      simp only [wifiStatus, emit, hc]
      exact sessionInv_reset _ [] _
        (sessionsOk_append [Event.status false, Event.banner _] _ hinv.1 (by simp))
        (by simp) (by simp [authsThisSession])
  · refine ⟨_, rfl, ?_⟩
    simp only [emit]
    exact sessionInv_append _ [Event.banner _] _ hinv (by simp)
  · obtain ⟨w1, evs, h1, h2, h3, -⟩ :=
      rr_setupWiFi_spec env fuel hfuel (emit (Event.banner PowerMode.MODE_WIFI_ONLY.toNat) w)
    simp only [h1]
    refine ⟨_, rfl, ?_⟩
    simp only [h2, emit]
    exact sessionInv_append _ evs _ (sessionInv_append _ [Event.banner _] _ hinv (by simp))
      (wifi_ne_initApp evs h3)
  · simp only
    have hw2 : ∃ w2 evs, (if (wifiStatus env
          (emit (Event.banner PowerMode.MODE_ULTRASONIC_WIFI_FIREBASE.toNat) w)).1 = true
        then some (wifiStatus env
          (emit (Event.banner PowerMode.MODE_ULTRASONIC_WIFI_FIREBASE.toNat) w)).2
        else setupWiFi env fuel (wifiStatus env
          (emit (Event.banner PowerMode.MODE_ULTRASONIC_WIFI_FIREBASE.toNat) w)).2) = some w2
        ∧ w2.trace = evs ++ w.trace ∧ ∀ e ∈ evs, e ≠ Event.initApp := by
      rcases Bool.eq_false_or_eq_true (wifiStatus env
          (emit (Event.banner PowerMode.MODE_ULTRASONIC_WIFI_FIREBASE.toNat) w)).1 with hc | hc
      · simp only [hc, if_true]
        exact ⟨_, [Event.status _, Event.banner _], rfl, rfl, by simp⟩
      · simp only [hc, Bool.false_eq_true, if_false]
        obtain ⟨w1, evs, h1, h2, h3, -⟩ := rr_setupWiFi_spec env fuel hfuel
          (wifiStatus env (emit (Event.banner PowerMode.MODE_ULTRASONIC_WIFI_FIREBASE.toNat) w)).2
        refine ⟨w1, evs ++ [Event.status (w.radioOn && env.link w.polls),
          Event.banner PowerMode.MODE_ULTRASONIC_WIFI_FIREBASE.toNat], h1, ?_, ?_⟩
        · rw [h2]; simp [wifiStatus, emit]
        · intro e he
          simp only [List.mem_append] at he
          rcases he with he | he
          · exact wifi_ne_initApp evs h3 e he
          · simp only [List.mem_cons, List.mem_singleton, List.not_mem_nil, or_false] at he
            rcases he with he | he <;> (subst he; exact fun h => Event.noConfusion h)
    obtain ⟨w2, evs, g1, g2, g3⟩ := hw2
    simp only [g1]
    by_cases hi : (wifiStatus env w2).1 = true ∧ fb = false
    · simp only [hi, and_self, if_true]
      refine ⟨_, rfl, ?_⟩
      simp only [emit, wifiStatus, g2]
      have hf : fb = false := hi.2
      subst hf
      exact sessionInv_init _ (sessionInv_append _ [Event.status _] _
        (sessionInv_append _ evs _ hinv g3) (by simp))
    · simp only [hi, if_false]
      refine ⟨_, rfl, ?_⟩
      simp only [wifiStatus, g2]
      exact sessionInv_append _ [Event.status _] _ (sessionInv_append _ evs _ hinv g3) (by simp)

theorem rr_modeBody_session (env : Env) (fuel : Nat) (hfuel : 61 ≤ fuel) (t : Nat) (s : State) :
    ∃ s1 evs, modeBody env fuel t s = some s1
      ∧ s1.world.trace = evs ++ s.world.trace ∧ (∀ e ∈ evs, e ≠ Event.initApp)
      ∧ (SessionInv s.firebaseInitialized s.world.trace
          → SessionInv s1.firebaseInitialized s1.world.trace) := by
  obtain ⟨m, mst, cc, fb, lp, lr, w⟩ := s
  unfold modeBody
  cases m
  · exact ⟨_, [], rfl, rfl, by simp, fun hinv => hinv⟩
  · refine ⟨_, [Event.pulse (env.echo w.pulses)], rfl, ?_, by simp, ?_⟩
    · simp [rr_readUltrasonic_world, pulseIn, delay]
    · intro hinv
      simp only [rr_readUltrasonic_world, pulseIn, delay]
      exact sessionInv_append _ [Event.pulse _] _ hinv (by simp)
  · simp only
    by_cases hd : usub t lp ≥ 3000
    · simp only [hd, if_true]
      rcases Bool.eq_false_or_eq_true (wifiStatus env (delay 500 w)).1 with hc | hc
      · simp only [hc, if_true]
        refine ⟨_, [Event.status (w.radioOn && env.link w.polls)], rfl, ?_, by simp, ?_⟩
        · simp [wifiStatus, delay]
        · intro hinv
          simp only [wifiStatus, delay]
          exact sessionInv_append _ [Event.status _] _ hinv (by simp)
      · simp only [hc, Bool.false_eq_true, if_false]
        obtain ⟨w1, evs, h1, h2, h3, -⟩ :=
          rr_setupWiFi_spec env fuel hfuel (wifiStatus env (delay 500 w)).2
        simp only [h1]
        have hn : ∀ e ∈ evs ++ [Event.status (w.radioOn && env.link w.polls)],
            e ≠ Event.initApp := by
          intro e he
          simp only [List.mem_append, List.mem_singleton] at he
          rcases he with he | he
          · exact wifi_ne_initApp evs h3 e he
          · subst he; exact fun h => Event.noConfusion h
        refine ⟨_, evs ++ [Event.status (w.radioOn && env.link w.polls)], rfl, ?_, hn, ?_⟩
        · simp [h2, wifiStatus, delay]
        · intro hinv
          have ht : w1.trace
              = (evs ++ [Event.status (w.radioOn && env.link w.polls)]) ++ w.trace := by
            simp [h2, wifiStatus, delay]
          simp only [ht]
          exact sessionInv_append _ _ _ hinv hn
    · simp only [hd, if_false]
      exact ⟨_, [], rfl, rfl, by simp, fun hinv => hinv⟩
  · simp only
    by_cases hd : usub t lr ≥ 3000
    · simp only [hd, if_true]
      rcases Bool.eq_false_or_eq_true (wifiStatus env w).1 with hc | hc
      · simp only [hc, Bool.true_eq_false, if_false]
        by_cases hr : (appReady env (readUltrasonic env (wifiStatus env w).2).2).1 = true
        · simp only [hr, if_true]
          have hn : ∀ e ∈ [Event.dbSet [cc, (millis (appReady env
              (readUltrasonic env (wifiStatus env w).2).2).2 : Int)] "/distance"
                (if (readUltrasonic env (wifiStatus env w).2).1 < 0 then 100.0
                  else (readUltrasonic env (wifiStatus env w).2).1),
              Event.ready (env.ready w.readyPolls), Event.pulse (env.echo w.pulses),
              Event.status (w.radioOn && env.link w.polls)], e ≠ Event.initApp := by
            intro e he
            simp only [List.mem_cons, List.mem_singleton, List.not_mem_nil, or_false] at he
            rcases he with he | he | he | he <;> (subst he; exact fun h => Event.noConfusion h)
          refine ⟨_, _, rfl, ?_, hn, ?_⟩
          · simp [rr_readUltrasonic_world, pulseIn, appReady, emit, wifiStatus]
          · intro hinv
            have ht := sessionInv_append fb _ _ hinv hn
            simpa [rr_readUltrasonic_world, pulseIn, appReady, emit, wifiStatus] using ht
        · simp only [hr, if_false]
          have hn : ∀ e ∈ [Event.ready (env.ready w.readyPolls), Event.pulse (env.echo w.pulses),
              Event.status (w.radioOn && env.link w.polls)], e ≠ Event.initApp := by
            intro e he
            simp only [List.mem_cons, List.mem_singleton, List.not_mem_nil, or_false] at he
            rcases he with he | he | he <;> (subst he; exact fun h => Event.noConfusion h)
          refine ⟨_, _, rfl, ?_, hn, ?_⟩
          · simp [rr_readUltrasonic_world, pulseIn, appReady, wifiStatus]
          · intro hinv
            have ht := sessionInv_append fb _ _ hinv hn
            simpa [rr_readUltrasonic_world, pulseIn, appReady, wifiStatus] using ht
      · simp only [hc, if_true]
        obtain ⟨w1, evs, h1, h2, h3, -⟩ := rr_setupWiFi_spec env fuel hfuel (wifiStatus env w).2
        simp only [h1]
        have hc1 : (w.radioOn && env.link w.polls) = false := by simpa [wifiStatus] using hc
        have hn : ∀ e ∈ evs ++ [Event.status false], e ≠ Event.initApp := by
          intro e he
          simp only [List.mem_append, List.mem_singleton] at he
          rcases he with he | he
          · exact wifi_ne_initApp evs h3 e he
          · subst he; exact fun h => Event.noConfusion h
        have ht : w1.trace = evs ++ (Event.status false :: w.trace) := by
          simp [h2, wifiStatus, hc1]
        refine ⟨_, evs ++ [Event.status false], rfl, ?_, hn, ?_⟩
        · simp [ht]
        · intro hinv
          simp only [ht]
          exact sessionInv_reset _ evs _
            (sessionsOk_append [Event.status false] _ hinv.1 (by simp))
            (wifi_ne_initApp evs h3) (by simp [authsThisSession])
    · simp only [hd, if_false]
      exact ⟨_, [], rfl, rfl, by simp, fun hinv => hinv⟩

theorem rr_loop_session (env : Env) (fuel : Nat) (hfuel : 61 ≤ fuel) (s : State) :
    ∃ s1, loop env fuel s = some s1
      ∧ (SessionInv s.firebaseInitialized s.world.trace
          → SessionInv s1.firebaseInitialized s1.world.trace)
      ∧ (¬ due s → initCalls s1.world.trace = initCalls s.world.trace) := by
  unfold loop transition
  by_cases hd : usub (millis s.world) s.modeStartTime ≥ MODE_DURATION
  · simp only [hd, if_true]
    by_cases hinv : SessionInv s.firebaseInitialized s.world.trace
    · obtain ⟨s1, h1, h2⟩ := rr_enterMode_session env fuel hfuel
        (if PowerMode.fromNat ((s.currentMode.toNat + 1) % 4) = PowerMode.MODE_IDLE then
          { s with currentMode := PowerMode.fromNat ((s.currentMode.toNat + 1) % 4),
                   modeStartTime := millis s.world, cycleCount := s.cycleCount + 1 }
         else
          { s with currentMode := PowerMode.fromNat ((s.currentMode.toNat + 1) % 4),
                   modeStartTime := millis s.world })
        (by split <;> exact hinv)
      obtain ⟨s2, evs, g1, -, -, g4⟩ := rr_modeBody_session env fuel hfuel (millis s.world) s1
      simp only [h1, g1]
      exact ⟨s2, rfl, fun _ => g4 h2, fun hn => absurd hd hn⟩
    · obtain ⟨s1, h1, -⟩ := rr_enterMode_spec env fuel hfuel
        (if PowerMode.fromNat ((s.currentMode.toNat + 1) % 4) = PowerMode.MODE_IDLE then
          { s with currentMode := PowerMode.fromNat ((s.currentMode.toNat + 1) % 4),
                   modeStartTime := millis s.world, cycleCount := s.cycleCount + 1 }
         else
          { s with currentMode := PowerMode.fromNat ((s.currentMode.toNat + 1) % 4),
                   modeStartTime := millis s.world })
      obtain ⟨s2, evs, g1, -, -, g4⟩ := rr_modeBody_session env fuel hfuel (millis s.world) s1
      simp only [h1, g1]
      exact ⟨s2, rfl, fun h => absurd h hinv, fun hn => absurd hd hn⟩
  · simp only [hd, if_false]
    obtain ⟨s2, evs, g1, g2, g3, g4⟩ := rr_modeBody_session env fuel hfuel (millis s.world) s
    simp only [g1]
    refine ⟨s2, rfl, g4, fun _ => ?_⟩
    rw [g2, initCalls_append _ _ g3]

theorem rr_run_session (env : Env) (fuel : Nat) (hfuel : 61 ≤ fuel) (ts : List Nat) :
    ∀ s : State, SessionInv s.firebaseInitialized s.world.trace →
      ∃ s1, run env fuel ts s = some s1
        ∧ SessionInv s1.firebaseInitialized s1.world.trace := by
  induction ts with
  | nil => intro s h; exact ⟨s, rfl, h⟩
  | cons t ts ih =>
    intro s h
    obtain ⟨s1, h1, h2, -⟩ :=
      rr_loop_session env fuel hfuel { s with world := { s.world with clock := t } }
    obtain ⟨s2, g1, g2⟩ := ih s1 (h2 h)
    exact ⟨s2, by simp only [run, h1, g1], g2⟩

theorem rr_run_stay (env : Env) (fuel : Nat) (hfuel : 61 ≤ fuel) (ts : List Nat) :
    ∀ s : State, (∀ t ∈ ts, usub (t % ULONG_MOD) s.modeStartTime < MODE_DURATION) →
      ∃ s1, run env fuel ts s = some s1
        ∧ initCalls s1.world.trace = initCalls s.world.trace
        ∧ s1.currentMode = s.currentMode ∧ s1.modeStartTime = s.modeStartTime := by
  induction ts with
  | nil => intro s _; exact ⟨s, rfl, rfl, rfl, rfl⟩
  | cons t ts ih =>
    intro s h
    have hnd : ¬ due { s with world := { s.world with clock := t } } := by
      have := h t (List.mem_cons_self _ _)
      unfold due millis
      simp only [ge_iff_le, not_le]
      exact this
    obtain ⟨s1, h1, -, h3⟩ :=
      rr_loop_session env fuel hfuel { s with world := { s.world with clock := t } }
    obtain ⟨s1', h1', -, h3'⟩ :=
      rr_loop_spec env fuel hfuel { s with world := { s.world with clock := t } }
    have hs : s1' = s1 := Option.some.inj (h1'.symm.trans h1)
    subst hs
    obtain ⟨a1, -, a3, -⟩ := h3' hnd
    obtain ⟨s2, g1, g2, g3, g4⟩ := ih s1' (fun x hx => by
      rw [a3]; exact h x (List.mem_cons_of_mem _ hx))
    refine ⟨s2, by simp only [run, h1, g1], ?_, ?_, ?_⟩
    · rw [g2, h3 hnd]
    · rw [g3, a1]
    · rw [g4, a3]

/-! ## Round-robin: the flag and the observed link -/

theorem rr_enterMode_flag (env : Env) (fuel : Nat) (hfuel : 61 ≤ fuel) (s : State)
    (hpre : s.currentMode ≠ PowerMode.MODE_IDLE → s.firebaseInitialized = false) :
    ∃ s1, enterMode env fuel s = some s1 ∧ FlagInv s1 := by
  obtain ⟨m, mst, cc, fb, lp, lr, w⟩ := s
  simp only at hpre
  unfold enterMode
  cases m
  · exact ⟨_, rfl, fun h => absurd h (by simp [idleEntry])⟩
  · have hfb : fb = false := hpre (by decide)
    subst hfb
    exact ⟨_, rfl, fun h => absurd h (by simp)⟩
  · have hfb : fb = false := hpre (by decide)
    subst hfb
    obtain ⟨w1, evs, h1, -⟩ :=
      rr_setupWiFi_spec env fuel hfuel (emit (Event.banner PowerMode.MODE_WIFI_ONLY.toNat) w)
    simp only [h1]
    exact ⟨_, rfl, fun h => absurd h (by simp)⟩
  · have hfb : fb = false := hpre (by decide)
    subst hfb
    simp only
    have hw2 : ∃ w2, (if (wifiStatus env
          (emit (Event.banner PowerMode.MODE_ULTRASONIC_WIFI_FIREBASE.toNat) w)).1 = true
        then some (wifiStatus env
          (emit (Event.banner PowerMode.MODE_ULTRASONIC_WIFI_FIREBASE.toNat) w)).2
        else setupWiFi env fuel (wifiStatus env
          (emit (Event.banner PowerMode.MODE_ULTRASONIC_WIFI_FIREBASE.toNat) w)).2)
        = some w2 := by
      rcases Bool.eq_false_or_eq_true (wifiStatus env
          (emit (Event.banner PowerMode.MODE_ULTRASONIC_WIFI_FIREBASE.toNat) w)).1 with hc | hc
      · simp only [hc, if_true]
        exact ⟨_, rfl⟩
      · simp only [hc, Bool.false_eq_true, if_false]
        obtain ⟨w1, evs, h1, -⟩ := rr_setupWiFi_spec env fuel hfuel
          (wifiStatus env (emit (Event.banner PowerMode.MODE_ULTRASONIC_WIFI_FIREBASE.toNat) w)).2
        exact ⟨w1, h1⟩
    obtain ⟨w2, g1⟩ := hw2
    simp only [g1]
    split
    next hi =>
      refine ⟨_, rfl, fun _ => ⟨rfl, ?_⟩⟩
      have hc : (w2.radioOn && env.link w2.polls) = true := by simpa [wifiStatus] using hi
      simp [emit, wifiStatus, lastStatus, hc]
    next hi =>
      exact ⟨_, rfl, fun h => absurd h (by simp)⟩

theorem rr_modeBody_flag (env : Env) (fuel : Nat) (hfuel : 61 ≤ fuel) (t : Nat) (s : State)
    (h : FlagInv s) :
    ∃ s1, modeBody env fuel t s = some s1 ∧ FlagInv s1 := by
  obtain ⟨m, mst, cc, fb, lp, lr, w⟩ := s
  unfold FlagInv at h
  simp only at h
  unfold modeBody
  cases m
  · exact ⟨_, rfl, fun hfb => absurd (h hfb).1 (by decide)⟩
  · exact ⟨_, rfl, fun hfb => absurd (h hfb).1 (by decide)⟩
  · simp only
    by_cases hd : usub t lp ≥ 3000
    · simp only [hd, if_true]
      rcases Bool.eq_false_or_eq_true (wifiStatus env (delay 500 w)).1 with hc | hc
      · simp only [hc, if_true]
        exact ⟨_, rfl, fun hfb => absurd (h hfb).1 (by decide)⟩
      · simp only [hc, Bool.false_eq_true, if_false]
        obtain ⟨w1, evs, h1, -⟩ :=
          rr_setupWiFi_spec env fuel hfuel (wifiStatus env (delay 500 w)).2
        simp only [h1]
        exact ⟨_, rfl, fun hfb => absurd (h hfb).1 (by decide)⟩
    · simp only [hd, if_false]
      exact ⟨_, rfl, fun hfb => absurd (h hfb).1 (by decide)⟩
  · simp only
    by_cases hd : usub t lr ≥ 3000
    · simp only [hd, if_true]
      rcases Bool.eq_false_or_eq_true (wifiStatus env w).1 with hc | hc
      · simp only [hc, Bool.true_eq_false, if_false]
        have hc1 : (w.radioOn && env.link w.polls) = true := by simpa [wifiStatus] using hc
        by_cases hr : (appReady env (readUltrasonic env (wifiStatus env w).2).2).1 = true
        · simp only [hr, if_true]
          refine ⟨_, rfl, fun _ => ⟨rfl, ?_⟩⟩
          simp [rr_readUltrasonic_world, pulseIn, appReady, emit, wifiStatus, lastStatus, hc1]
        · simp only [hr, if_false]
          refine ⟨_, rfl, fun _ => ⟨rfl, ?_⟩⟩
          simp [rr_readUltrasonic_world, pulseIn, appReady, wifiStatus, lastStatus, hc1]
      · simp only [hc, if_true]
        obtain ⟨w1, evs, h1, -⟩ := rr_setupWiFi_spec env fuel hfuel (wifiStatus env w).2
        simp only [h1]
        exact ⟨_, rfl, fun hfb => absurd hfb (by simp)⟩
    · simp only [hd, if_false]
      exact ⟨_, rfl, h⟩

theorem rr_loop_flag (env : Env) (fuel : Nat) (hfuel : 61 ≤ fuel) (s : State) (h : FlagInv s) :
    ∃ s1, loop env fuel s = some s1 ∧ FlagInv s1 := by
  unfold loop transition
  by_cases hd : usub (millis s.world) s.modeStartTime ≥ MODE_DURATION
  · simp only [hd, if_true]
    have hpre : PowerMode.fromNat ((s.currentMode.toNat + 1) % 4) ≠ PowerMode.MODE_IDLE
        → s.firebaseInitialized = false := by
      intro hne
      rcases Bool.eq_false_or_eq_true s.firebaseInitialized with hfb | hfb
      · have hm := (h hfb).1
        rw [hm] at hne
        exact absurd rfl hne
      · exact hfb
    obtain ⟨s1, h1, h2⟩ := rr_enterMode_flag env fuel hfuel
      (if PowerMode.fromNat ((s.currentMode.toNat + 1) % 4) = PowerMode.MODE_IDLE then
        { s with currentMode := PowerMode.fromNat ((s.currentMode.toNat + 1) % 4),
                 modeStartTime := millis s.world, cycleCount := s.cycleCount + 1 }
       else
        { s with currentMode := PowerMode.fromNat ((s.currentMode.toNat + 1) % 4),
                 modeStartTime := millis s.world })
      (by split <;> exact hpre)
    obtain ⟨s2, g1, g2⟩ := rr_modeBody_flag env fuel hfuel (millis s.world) s1 h2
    simp only [h1, g1]
    exact ⟨s2, rfl, g2⟩
  · simp only [hd, if_false]
    obtain ⟨s2, g1, g2⟩ := rr_modeBody_flag env fuel hfuel (millis s.world) s h
    simp only [g1]
    exact ⟨s2, rfl, g2⟩

theorem rr_run_flag (env : Env) (fuel : Nat) (hfuel : 61 ≤ fuel) (ts : List Nat) :
    ∀ s : State, FlagInv s → ∃ s1, run env fuel ts s = some s1 ∧ FlagInv s1 := by
  induction ts with
  | nil => intro s h; exact ⟨s, rfl, h⟩
  | cons t ts ih =>
    intro s h
    obtain ⟨s1, h1, h2⟩ :=
      rr_loop_flag env fuel hfuel { s with world := { s.world with clock := t } } h
    obtain ⟨s2, g1, g2⟩ := ih s1 h2
    exact ⟨s2, by simp only [run, h1, g1], g2⟩

/-- C12, as stated, fails: with a link that is up for the first seven status
reads and down afterwards, the demo started by `setup` at power-on reaches
full operation at 46 s and initialises Firebase, and after the passes at
46.001 s and 47 s the link is down (a status read would not show Connected)
while `firebaseInitialized` is still true. -/
theorem roundRobin_flag_outlives_link :
    ∃ s, run dropEnv 61 [16000, 31000, 46000, 46001, 47000] (setup powerOn) = some s
      ∧ linkConnected dropEnv s = false ∧ s.firebaseInitialized = true :=
  ⟨_, rfl, by decide, by decide⟩

/-- C12 (amended). Round-robin controller, for every behaviour of the link:
in every state reached from `setup` by passes of `loop()`,
`firebaseInitialized` is false whenever the most recent `WiFi.status()` read
did not show the link up, and it is set only in full operation. A link that
drops between two reads leaves the flag set until the next read, which in full
operation comes within 3 seconds. -/
theorem roundRobin_flag_follows_observed_link (env : Env) (fuel : Nat) (hfuel : 61 ≤ fuel)
    (w : World) (ts : List Nat) :
    ∃ s, run env fuel ts (setup w) = some s
      ∧ (lastStatus s.world.trace ≠ some true → s.firebaseInitialized = false)
      ∧ (s.currentMode ≠ PowerMode.MODE_ULTRASONIC_WIFI_FIREBASE
          → s.firebaseInitialized = false) := by
  have h0 : FlagInv (setup w) := fun h => absurd h (by simp [setup])
  obtain ⟨s, h1, h2⟩ := rr_run_flag env fuel hfuel ts (setup w) h0
  refine ⟨s, h1, fun hne => ?_, fun hne => ?_⟩
  · rcases Bool.eq_false_or_eq_true s.firebaseInitialized with hfb | hfb
    · exact absurd (h2 hfb).2 hne
    · exact hfb
  · rcases Bool.eq_false_or_eq_true s.firebaseInitialized with hfb | hfb
    · exact absurd (h2 hfb).1 hne
    · exact hfb

/-- Witness for C12 (amended): the run in which the link drops in full
operation; the last status read before the drop showed the link up. -/
theorem roundRobin_flag_follows_observed_link_witness :
    61 ≤ 61
    ∧ (∃ s, run dropEnv 61 [16000, 31000, 46000, 46001, 47000] (setup powerOn) = some s
      ∧ (lastStatus s.world.trace ≠ some true → s.firebaseInitialized = false)
      ∧ (s.currentMode ≠ PowerMode.MODE_ULTRASONIC_WIFI_FIREBASE
          → s.firebaseInitialized = false)) :=
  ⟨le_refl 61, roundRobin_flag_follows_observed_link dropEnv 61 (le_refl 61) powerOn
    [16000, 31000, 46000, 46001, 47000]⟩

/-- C6. Round-robin controller. From any state whose trace is still empty,
any sequence of passes of `loop()` returns and at every moment of the run at
most one `initializeApp` call has been made since the current connectivity
session began (since the last radio teardown or the last `WiFi.status()` read
that showed the link down). And from any state, passes during which no mode
change is due, however many, make no `initializeApp` call and stay in the
mode; this covers staying in `MODE_ULTRASONIC_WIFI_FIREBASE` with the link up
and `firebaseInitialized` set. -/
theorem roundRobin_auth_once (env : Env) (fuel : Nat) (hfuel : 61 ≤ fuel) (s : State)
    (ts : List Nat) :
    (s.world.trace = [] →
      ∃ s1, run env fuel ts s = some s1
        ∧ ∀ t1 t2, s1.world.trace = t1 ++ t2 → authsThisSession t2 ≤ 1)
    ∧ ((∀ t ∈ ts, usub (t % ULONG_MOD) s.modeStartTime < MODE_DURATION) →
      ∃ s1, run env fuel ts s = some s1
        ∧ initCalls s1.world.trace = initCalls s.world.trace
        ∧ s1.currentMode = s.currentMode) := by
  constructor
  · intro h0
    have hinv : SessionInv s.firebaseInitialized s.world.trace := by
      rw [h0]
      exact ⟨sessionsOk_nil, fun h => absurd rfl h⟩
    obtain ⟨s1, h1, h2⟩ := rr_run_session env fuel hfuel ts s hinv
    exact ⟨s1, h1, h2.1⟩
  · intro h
    obtain ⟨s1, h1, h2, h3, -⟩ := rr_run_stay env fuel hfuel ts s h
    exact ⟨s1, h1, h2, h3⟩

/-- Witness for C6: the round-robin demo in full operation, mode 3 entered at
46 s with the link up and Firebase initialised, and five passes within the
dwell time. -/
theorem roundRobin_auth_once_witness :
    61 ≤ 61
    ∧ fullOperation.world.trace = []
    ∧ (∀ t ∈ [46000, 46001, 50000, 53000, 60999],
        usub (t % ULONG_MOD) fullOperation.modeStartTime < MODE_DURATION)
    ∧ (∃ s1, run liveEnv 61 [46000, 46001, 50000, 53000, 60999] fullOperation = some s1
        ∧ initCalls s1.world.trace = initCalls fullOperation.world.trace
        ∧ s1.currentMode = fullOperation.currentMode) :=
  ⟨le_refl 61, rfl, by decide,
    (roundRobin_auth_once liveEnv 61 (le_refl 61) fullOperation
      [46000, 46001, 50000, 53000, 60999]).2 (by decide)⟩

/-- C7. Idle entry of the round-robin demo (`disconnectWiFi();
firebaseInitialized = false;`), for every state of the radio and the link.
Two applications in a row call `WiFi.disconnect` at most once between them.
If the link does not come up by itself between the two, the second
application is a no-op: it reads `WiFi.status()` once, finds the link down and
changes nothing else. And `disconnectWiFi` on a link that is down only reads
the status. -/
theorem idleEntry_idempotent (env : Env) (s : State) :
    teardowns (idleEntry env (idleEntry env s)).world.trace ≤ teardowns s.world.trace + 1
    ∧ ((env.link s.world.polls = false → env.link (s.world.polls + 1) = false) →
        idleEntry env (idleEntry env s)
          = { idleEntry env s with
              world := { (idleEntry env s).world with
                polls := (idleEntry env s).world.polls + 1,
                trace := Event.status false :: (idleEntry env s).world.trace } })
    ∧ (∀ w : World, (wifiStatus env w).1 = false →
        disconnectWiFi env w = (wifiStatus env w).2
        ∧ teardowns (disconnectWiFi env w).trace = teardowns w.trace) := by
  obtain ⟨m, mst, cc, fb, lp, lr, w⟩ := s
  obtain ⟨clock, polls, radioOn, readyPolls, pulses, trace⟩ := w
  refine ⟨?_, ?_, ?_⟩
  · cases radioOn <;> cases h : env.link polls <;> cases h1 : env.link (polls + 1) <;>
      simp [idleEntry, disconnectWiFi, wifiStatus, wifiModeOff, wifiDisconnect, teardowns, h, h1,
        List.count_cons]
  · intro hs
    cases radioOn <;> cases h : env.link polls
    · simp [idleEntry, disconnectWiFi, wifiStatus, h]
    · simp [idleEntry, disconnectWiFi, wifiStatus, h]
    · have h1 : env.link (polls + 1) = false := hs h
      simp [idleEntry, disconnectWiFi, wifiStatus, h, h1]
    · simp [idleEntry, disconnectWiFi, wifiStatus, wifiModeOff, wifiDisconnect, h]
  · intro w hw
    have h1 : disconnectWiFi env w = (wifiStatus env w).2 := by
      simp only [disconnectWiFi, hw, Bool.false_eq_true, if_false]
    refine ⟨h1, ?_⟩
    rw [h1]
    simp [wifiStatus, teardowns, List.count_cons]

/-- Witness for C7: the demo in full operation with the link up, idle entered
twice; the first entry tears the radio down, the second only reads the
status. -/
theorem idleEntry_idempotent_witness :
    (liveEnv.link fullOperation.world.polls = false
        → liveEnv.link (fullOperation.world.polls + 1) = false)
    ∧ teardowns (idleEntry liveEnv fullOperation).world.trace = 1
    ∧ idleEntry liveEnv (idleEntry liveEnv fullOperation)
        = { idleEntry liveEnv fullOperation with
            world := { (idleEntry liveEnv fullOperation).world with
              polls := (idleEntry liveEnv fullOperation).world.polls + 1,
              trace := Event.status false :: (idleEntry liveEnv fullOperation).world.trace } }
    ∧ (wifiStatus liveEnv powerOn).1 = false
    ∧ disconnectWiFi liveEnv powerOn = (wifiStatus liveEnv powerOn).2 :=
  ⟨fun h => absurd h (by decide), by decide,
    (idleEntry_idempotent liveEnv fullOperation).2.1 (fun h => absurd h (by decide)),
    rfl,
    ((idleEntry_idempotent liveEnv fullOperation).2.2 powerOn rfl).1⟩

/-- C1. Round-robin controller. With enough fuel for the connection loop,
every pass of `loop()` returns. A pass on which the mode change is due sets
`currentMode` to `(currentMode + 1) mod 4` and adds one to `cycleCount`
exactly when the new mode is `MODE_IDLE`; any other pass leaves both
unchanged. Over any sequence of passes from any state the modes entered are
the rotation started at the current mode, `cycleCount` grows by the number of
entries into `MODE_IDLE`, and any four consecutive mode changes enter each of
the four modes exactly once. -/
theorem roundRobin_mode_cycle (env : Env) (fuel : Nat) (hfuel : 61 ≤ fuel) (s : State)
    (ts : List Nat) :
    (∃ s1, loop env fuel s = some s1
      ∧ (due s →
          s1.currentMode = PowerMode.fromNat ((s.currentMode.toNat + 1) % 4)
          ∧ (s1.currentMode = PowerMode.MODE_IDLE → s1.cycleCount = s.cycleCount + 1)
          ∧ (s1.currentMode ≠ PowerMode.MODE_IDLE → s1.cycleCount = s.cycleCount))
      ∧ (¬ due s → s1.currentMode = s.currentMode ∧ s1.cycleCount = s.cycleCount))
    ∧ (∃ s1 n, run env fuel ts s = some s1
      ∧ banners s1.world.trace
          = ((cycleFrom s.currentMode n).map PowerMode.toNat).reverse ++ banners s.world.trace
      ∧ s1.cycleCount
          = s.cycleCount + ((cycleFrom s.currentMode n).count PowerMode.MODE_IDLE : Nat)
      ∧ ∀ i, i + 4 ≤ n →
          (((cycleFrom s.currentMode n).drop i).take 4).Perm
            [PowerMode.MODE_IDLE, PowerMode.MODE_ULTRASONIC, PowerMode.MODE_WIFI_ONLY,
              PowerMode.MODE_ULTRASONIC_WIFI_FIREBASE]) := by
  constructor
  · obtain ⟨s1, h1, hdue, hnot⟩ := rr_loop_spec env fuel hfuel s
    refine ⟨s1, h1, fun hd => ?_, fun hd => ?_⟩
    · obtain ⟨a1, a2, a3, -⟩ := hdue hd
      exact ⟨a1, a2, a3⟩
    · obtain ⟨a1, a2, -⟩ := hnot hd
      exact ⟨a1, a2⟩
  · obtain ⟨s1, n, h1, -, -, h4, h5⟩ := rr_run_spec env fuel hfuel ts s
    exact ⟨s1, n, h1, h4, h5, fun i hi => cycleFrom_window _ _ _ hi⟩

/-- Witness for C1: the dead environment, fuel 61, the state after `setup()`
and five passes 15 seconds apart. -/
theorem roundRobin_mode_cycle_witness :
    61 ≤ 61
    ∧ (∃ s1 n, run deadEnv 61 [16000, 31000, 46000, 61000, 76000] (setup powerOn) = some s1
      ∧ banners s1.world.trace
          = ((cycleFrom (setup powerOn).currentMode n).map PowerMode.toNat).reverse
              ++ banners (setup powerOn).world.trace
      ∧ s1.cycleCount = (setup powerOn).cycleCount
          + ((cycleFrom (setup powerOn).currentMode n).count PowerMode.MODE_IDLE : Nat)
      ∧ ∀ i, i + 4 ≤ n →
          (((cycleFrom (setup powerOn).currentMode n).drop i).take 4).Perm
            [PowerMode.MODE_IDLE, PowerMode.MODE_ULTRASONIC, PowerMode.MODE_WIFI_ONLY,
              PowerMode.MODE_ULTRASONIC_WIFI_FIREBASE]) :=
  ⟨le_refl 61,
    (roundRobin_mode_cycle deadEnv 61 (le_refl 61) (setup powerOn)
      [16000, 31000, 46000, 61000, 76000]).2⟩

end RoundRobin

/-! ## Rate sweep and deep-sleep pipeline: the connection loops are bounded -/

namespace RateSweep

theorem rs_setupWiFiLoop_spec (env : Env) (fuel : Nat) :
    ∀ (attempts : Nat) (w : World), 60 - attempts < fuel →
      ∃ a1 w1 evs, setupWiFiLoop env fuel attempts w = some (a1, w1)
        ∧ w1.trace = evs ++ w.trace ∧ (∀ e ∈ evs, e.isWiFi = true)
        ∧ attempts ≤ a1 ∧ a1 ≤ max attempts 60
        ∧ w1.polls = w.polls + (a1 - attempts) + 1
        ∧ w1.clock = w.clock + 500 * (a1 - attempts)
        ∧ w1.readyPolls = w.readyPolls ∧ w1.pulses = w.pulses ∧ w1.radioOn = w.radioOn := by
  induction fuel with
  | zero => intro attempts w h; omega
  | succ fuel ih =>
    intro attempts w h
    unfold setupWiFiLoop
    by_cases hc : (wifiStatus env w).1 = false ∧ attempts < 60
    · simp only [hc, and_self, if_true]
      obtain ⟨a1, w1, evs, h1, h2, h3, h4, h5, h6, h7, h8, h9, h10⟩ :=
        ih (attempts + 1) (delay 500 (wifiStatus env w).2) (by omega)
      refine ⟨a1, w1, evs ++ [Event.status (wifiStatus env w).1], h1, ?_, ?_, by omega, by omega,
        ?_, ?_, ?_, ?_, ?_⟩
      · rw [h2]; simp [wifiStatus, delay]
      · intro e he
        simp only [List.mem_append, List.mem_singleton] at he
        rcases he with he | he
        · exact h3 e he
        · subst he; rfl
      · rw [h6]; simp [wifiStatus, delay]; omega
      · rw [h7]; simp [wifiStatus, delay]; omega
      · rw [h8]; simp [wifiStatus, delay]
      · rw [h9]; simp [wifiStatus, delay]
      · rw [h10]; simp [wifiStatus, delay]
    · simp only [hc, if_false]
      refine ⟨attempts, (wifiStatus env w).2, [Event.status (wifiStatus env w).1], rfl, ?_, ?_,
        le_refl _, le_max_left _ _, ?_, ?_, ?_, ?_, ?_⟩
      · simp [wifiStatus]
      · intro e he
        simp only [List.mem_singleton] at he
        subst he; rfl
      all_goals simp [wifiStatus]

theorem rs_setupWiFi_spec (env : Env) (fuel : Nat) (hfuel : 61 ≤ fuel) (w : World) :
    ∃ w1 evs, setupWiFi env fuel w = some w1
      ∧ w1.trace = evs ++ w.trace ∧ (∀ e ∈ evs, e.isWiFi = true)
      ∧ w.polls < w1.polls ∧ w1.polls ≤ w.polls + 63
      ∧ w.clock ≤ w1.clock ∧ w1.clock ≤ w.clock + 30500
      ∧ w1.readyPolls = w.readyPolls ∧ w1.pulses = w.pulses := by
  unfold setupWiFi
  rcases Bool.eq_false_or_eq_true (wifiStatus env w).1 with hc | hc
  · simp only [hc, if_true]
    refine ⟨_, [Event.status (wifiStatus env w).1], rfl, ?_, ?_, ?_, ?_, ?_, ?_, ?_, ?_⟩
    · simp [wifiStatus]
    · intro e he
      simp only [List.mem_singleton] at he
      subst he; rfl
    all_goals simp [wifiStatus]
  · simp only [hc, Bool.false_eq_true, if_false]
    obtain ⟨a1, w4, evs, h1, h2, h3, h4, h5, h6, h7, h8, h9, -⟩ :=
      rs_setupWiFiLoop_spec env fuel 0
        (wifiBegin (wifiModeSta (delay 500 (wifiModeOff (wifiDisconnect (wifiStatus env w).2)))))
        (by omega)
    simp only [h1]
    have ha : a1 ≤ 60 := by simpa using h5
    refine ⟨_, Event.status (wifiStatus env w4).1 :: (evs ++ [Event.wifiBegin, Event.modeSta,
      Event.modeOff, Event.disconnect, Event.status (wifiStatus env w).1]), rfl,
      ?_, ?_, ?_, ?_, ?_, ?_, ?_, ?_⟩
    · simp [wifiStatus, h2, wifiBegin, wifiModeSta, wifiModeOff, wifiDisconnect, delay]
    · intro e he
      simp only [List.mem_cons, List.mem_append, List.mem_singleton, List.not_mem_nil,
        or_false] at he
      rcases he with he | he | he | he | he | he | he
      · subst he; rfl
      · exact h3 e he
      all_goals (subst he; rfl)
    · simp [wifiStatus, h6, wifiBegin, wifiModeSta, wifiModeOff, wifiDisconnect, delay]; omega
    · simp [wifiStatus, h6, wifiBegin, wifiModeSta, wifiModeOff, wifiDisconnect, delay]; omega
    · simp [wifiStatus, h7, wifiBegin, wifiModeSta, wifiModeOff, wifiDisconnect, delay]; omega
    · simp [wifiStatus, h7, wifiBegin, wifiModeSta, wifiModeOff, wifiDisconnect, delay]; omega
    · simp [wifiStatus, h8, wifiBegin, wifiModeSta, wifiModeOff, wifiDisconnect, delay]
    · simp [wifiStatus, h9, wifiBegin, wifiModeSta, wifiModeOff, wifiDisconnect, delay]

end RateSweep

namespace LowPower

theorem lp_connectWiFiLoop_spec (env : Env) (fuel : Nat) :
    ∀ (attempts : Nat) (w : World), 20 - attempts < fuel →
      ∃ a1 w1 evs, connectWiFiLoop env fuel attempts w = some (a1, w1)
        ∧ w1.trace = evs ++ w.trace ∧ (∀ e ∈ evs, e.isWiFi = true)
        ∧ attempts ≤ a1 ∧ a1 ≤ max attempts 20
        ∧ w1.polls = w.polls + (a1 - attempts) + 1
        ∧ w1.clock = w.clock + 500 * (a1 - attempts)
        ∧ w1.readyPolls = w.readyPolls ∧ w1.pulses = w.pulses ∧ w1.radioOn = w.radioOn := by
  induction fuel with
  | zero => intro attempts w h; omega
  | succ fuel ih =>
    intro attempts w h
    unfold connectWiFiLoop
    by_cases hc : (wifiStatus env w).1 = false ∧ attempts < MAX_WIFI_ATTEMPTS
    · simp only [hc, and_self, if_true]
      have hlt : attempts < 20 := hc.2
      obtain ⟨a1, w1, evs, h1, h2, h3, h4, h5, h6, h7, h8, h9, h10⟩ :=
        ih (attempts + 1) (delay 500 (wifiStatus env w).2) (by omega)
      refine ⟨a1, w1, evs ++ [Event.status (wifiStatus env w).1], h1, ?_, ?_, by omega, by omega,
        ?_, ?_, ?_, ?_, ?_⟩
      · rw [h2]; simp [wifiStatus, delay]
      · intro e he
        simp only [List.mem_append, List.mem_singleton] at he
        rcases he with he | he
        · exact h3 e he
        · subst he; rfl
      · rw [h6]; simp [wifiStatus, delay]; omega
      · rw [h7]; simp [wifiStatus, delay]; omega
      · rw [h8]; simp [wifiStatus, delay]
      · rw [h9]; simp [wifiStatus, delay]
      · rw [h10]; simp [wifiStatus, delay]
    · simp only [hc, if_false]
      refine ⟨attempts, (wifiStatus env w).2, [Event.status (wifiStatus env w).1], rfl, ?_, ?_,
        le_refl _, le_max_left _ _, ?_, ?_, ?_, ?_, ?_⟩
      · simp [wifiStatus]
      · intro e he
        simp only [List.mem_singleton] at he
        subst he; rfl
      all_goals simp [wifiStatus]

theorem lp_connectWiFi_spec (env : Env) (fuel : Nat) (hfuel : 21 ≤ fuel) (w : World) :
    ∃ c w1 evs, connectWiFi env fuel w = some (c, w1)
      ∧ w1.trace = evs ++ w.trace ∧ (∀ e ∈ evs, e.isWiFi = true)
      ∧ w.polls + 2 ≤ w1.polls ∧ w1.polls ≤ w.polls + 22
      ∧ w.clock ≤ w1.clock ∧ w1.clock ≤ w.clock + 10000
      ∧ w1.readyPolls = w.readyPolls ∧ w1.pulses = w.pulses := by
  unfold connectWiFi
  obtain ⟨a1, w2, evs, h1, h2, h3, h4, h5, h6, h7, h8, h9, -⟩ :=
    lp_connectWiFiLoop_spec env fuel 0 (wifiBegin (wifiModeSta w)) (by omega)
  simp only [h1]
  have ha : a1 ≤ 20 := by simpa using h5
  rcases Bool.eq_false_or_eq_true (wifiStatus env w2).1 with hc | hc
  · simp only [hc, if_true]
    refine ⟨true, _, Event.status true :: (evs ++ [Event.wifiBegin, Event.modeSta]), rfl,
      ?_, ?_, ?_, ?_, ?_, ?_, ?_, ?_⟩
    · simp only [wifiStatus] at hc
      simp [wifiStatus, hc, h2, wifiBegin, wifiModeSta]
    · intro e he
      simp only [List.mem_cons, List.mem_append, List.mem_singleton, List.not_mem_nil,
        or_false] at he
      rcases he with he | he | he | he
      · subst he; rfl
      · exact h3 e he
      all_goals (subst he; rfl)
    · simp [wifiStatus, h6, wifiBegin, wifiModeSta]
    · simp [wifiStatus, h6, wifiBegin, wifiModeSta]; omega
    · simp [wifiStatus, h7, wifiBegin, wifiModeSta]
    · simp [wifiStatus, h7, wifiBegin, wifiModeSta]; omega
    · simp [wifiStatus, h8, wifiBegin, wifiModeSta]
    · simp [wifiStatus, h9, wifiBegin, wifiModeSta]
  · simp only [hc, Bool.false_eq_true, if_false]
    refine ⟨false, _, Event.status false :: (evs ++ [Event.wifiBegin, Event.modeSta]), rfl,
      ?_, ?_, ?_, ?_, ?_, ?_, ?_, ?_⟩
    · simp only [wifiStatus] at hc
      simp [wifiStatus, hc, h2, wifiBegin, wifiModeSta]
    · intro e he
      simp only [List.mem_cons, List.mem_append, List.mem_singleton, List.not_mem_nil,
        or_false] at he
      rcases he with he | he | he | he
      · subst he; rfl
      · exact h3 e he
      all_goals (subst he; rfl)
    · simp [wifiStatus, h6, wifiBegin, wifiModeSta]
    · simp [wifiStatus, h6, wifiBegin, wifiModeSta]; omega
    · simp [wifiStatus, h7, wifiBegin, wifiModeSta]
    · simp [wifiStatus, h7, wifiBegin, wifiModeSta]; omega
    · simp [wifiStatus, h8, wifiBegin, wifiModeSta]
    · simp [wifiStatus, h9, wifiBegin, wifiModeSta]

end LowPower

/-! ## C5: the 2 Hz mode of the rate sweep -/

theorem usub_add_left (a d e : Nat) (h : e ≤ d) :
    usub ((a + d) % ULONG_MOD) ((a + e) % ULONG_MOD) = (d - e) % ULONG_MOD := by
  unfold usub ULONG_MOD
  omega

namespace RateSweep

theorem rs_readUltrasonic_world (env : Env) (w : World) :
    (readUltrasonic env w).2 = (pulseIn env w).2 := by
  unfold readUltrasonic
  simp only
  split
  · rfl
  · split <;> rfl

theorem rs_loop_idle (env : Env) (s : State)
    (h1 : ¬ usub (millis s.world) s.modeStartTime ≥ MODE_DURATION)
    (h2 : ¬ usub (millis s.world) s.lastSend ≥ INTERVALS s.currentMode) :
    loop env s = { s with world := delay 10 s.world } := by
  simp [loop, transition, send, h1, h2]

theorem rs_loop_send (env : Env) (s : State)
    (h1 : ¬ usub (millis s.world) s.modeStartTime ≥ MODE_DURATION)
    (h2 : usub (millis s.world) s.lastSend ≥ INTERVALS s.currentMode) :
    (loop env s).currentMode = s.currentMode
    ∧ (loop env s).modeStartTime = s.modeStartTime
    ∧ (loop env s).modeCount = s.modeCount
    ∧ (loop env s).readingCount = s.readingCount + 1
    ∧ (loop env s).lastSend = millis s.world
    ∧ (loop env s).world.clock = s.world.clock + 10
    ∧ dbKeys (loop env s).world.trace
        = ([s.modeCount, s.readingCount + 1], "/timestamp")
          :: ([s.modeCount, s.readingCount + 1], "/distance") :: dbKeys s.world.trace := by
  simp [loop, transition, send, h1, h2, emit, delay, rs_readUltrasonic_world, pulseIn, dbKeys]

theorem rs_two_hz_passes (env : Env) (s : State)
    (hmode : s.currentMode = TransmissionMode.MODE_2HZ)
    (hstart : s.modeStartTime = millis s.world)
    (hcount : s.readingCount = 0)
    (hdue : usub (millis s.world) s.lastSend ≥ 500) :
    ∀ k, k < 6000 →
      ((loop env)^[k + 1] s).currentMode = TransmissionMode.MODE_2HZ
      ∧ ((loop env)^[k + 1] s).modeStartTime = s.world.clock % ULONG_MOD
      ∧ ((loop env)^[k + 1] s).modeCount = s.modeCount
      ∧ ((loop env)^[k + 1] s).readingCount = ((k / 50 + 1 : Nat) : Int)
      ∧ ((loop env)^[k + 1] s).lastSend = (s.world.clock + 500 * (k / 50)) % ULONG_MOD
      ∧ ((loop env)^[k + 1] s).world.clock = s.world.clock + 10 * (k + 1)
      ∧ dbKeys ((loop env)^[k + 1] s).world.trace
          = readingKeys s.modeCount (k / 50 + 1) ++ dbKeys s.world.trace := by
  intro k
  induction k with
  | zero =>
    intro _
    have h1 : ¬ usub (millis s.world) s.modeStartTime ≥ MODE_DURATION := by
      rw [hstart]
      unfold usub millis ULONG_MOD MODE_DURATION
      omega
    have h2 : usub (millis s.world) s.lastSend ≥ INTERVALS s.currentMode := by
      rw [hmode]; exact hdue
    obtain ⟨a1, a2, a3, a4, a5, a6, a7⟩ := rs_loop_send env s h1 h2
    simp only [zero_add, Function.iterate_one]
    refine ⟨a1.trans hmode, a2.trans hstart, a3, ?_, ?_, ?_, ?_⟩
    · rw [a4, hcount]; rfl
    · rw [a5]; rfl
    · rw [a6]
    · rw [a7, hcount]; rfl
  | succ k ih =>
    intro hk
    obtain ⟨b1, b2, b3, b4, b5, b6, b7⟩ := ih (by omega)
    rw [Function.iterate_succ_apply']
    generalize (loop env)^[k + 1] s = s1 at b1 b2 b3 b4 b5 b6 b7 ⊢
    have hm : millis s1.world = (s.world.clock + 10 * (k + 1)) % ULONG_MOD := by
      unfold millis; rw [b6]
    have h1 : ¬ usub (millis s1.world) s1.modeStartTime ≥ MODE_DURATION := by
      have hs : s1.modeStartTime = (s.world.clock + 0) % ULONG_MOD := by rw [b2]; rfl
      rw [hm, hs, usub_add_left _ _ _ (Nat.zero_le _), Nat.sub_zero,
        Nat.mod_eq_of_lt (by unfold ULONG_MOD; omega)]
      unfold MODE_DURATION
      omega
    by_cases h50 : (k + 1) % 50 = 0
    · have hq : (k + 1) / 50 = k / 50 + 1 := by omega
      have h2 : usub (millis s1.world) s1.lastSend ≥ INTERVALS s1.currentMode := by
        have hx : 10 * (k + 1) - 500 * (k / 50) = 10 * (k % 50) + 10 := by omega
        rw [b1, b5, hm, usub_add_left _ _ _ (by omega), hx,
          Nat.mod_eq_of_lt (by unfold ULONG_MOD; omega)]
        unfold INTERVALS
        simp only [ge_iff_le]
        omega
      obtain ⟨a1, a2, a3, a4, a5, a6, a7⟩ := rs_loop_send env s1 h1 h2
      refine ⟨a1.trans b1, a2.trans b2, a3.trans b3, ?_, ?_, ?_, ?_⟩
      · rw [a4, b4, hq]; push_cast; ring
      · rw [a5, hq, hm]
        congr 1
        omega
      · rw [a6, b6]; ring
      · rw [a7, b7, b3, b4, hq]
        rfl
    · have hq : (k + 1) / 50 = k / 50 := by omega
      have h2 : ¬ usub (millis s1.world) s1.lastSend ≥ INTERVALS s1.currentMode := by
        have hx : 10 * (k + 1) - 500 * (k / 50) = 10 * (k % 50) + 10 := by omega
        rw [b1, b5, hm, usub_add_left _ _ _ (by omega), hx,
          Nat.mod_eq_of_lt (by unfold ULONG_MOD; omega)]
        unfold INTERVALS
        simp only [ge_iff_le]
        omega
      rw [rs_loop_idle env s1 h1 h2, hq]
      refine ⟨b1, b2, b3, b4, b5, ?_, b7⟩
      simp only [delay]
      rw [b6]; ring

theorem rs_loop_leave_two_hz (env : Env) (s : State)
    (hmode : s.currentMode = TransmissionMode.MODE_2HZ)
    (h1 : usub (millis s.world) s.modeStartTime ≥ MODE_DURATION)
    (h2 : ¬ usub (millis s.world) s.lastSend ≥ 1000) :
    loop env s = { s with
      currentMode := TransmissionMode.MODE_1HZ, modeCount := s.modeCount + 1,
      readingCount := 0, modeStartTime := millis s.world,
      world := delay 10 (delay 10000 s.world) } := by
  have h3 : ¬ 1000 ≤ usub (millis s.world) s.lastSend := h2
  have h4 : MODE_DURATION ≤ usub (millis s.world) s.modeStartTime := h1
  simp [loop, transition, send, hmode, h3, h4, TransmissionMode.toNat,
    TransmissionMode.fromNat, INTERVALS]

/-- C5. Rate sweep, 2 Hz mode. Start in `MODE_2HZ` at the mode's start time
with no reading counted yet and a reading due (as `setup` leaves the sketch).
Passes of `loop()` separated only by its own `delay(10)` then run at 0, 10,
20, ... ms after the start; the first 6000 stay in the mode and make the
`Database.set` calls of readings 1, 2, ..., 120 of this mode, in this order
and nothing else; the pass at 60000 ms moves to the next mode, whose
`modeCount` is one higher, without a `Database.set`. -/
theorem rateSweep_two_hz_uploads (env : Env) (s : State)
    (hmode : s.currentMode = TransmissionMode.MODE_2HZ)
    (hstart : s.modeStartTime = millis s.world)
    (hcount : s.readingCount = 0)
    (hdue : usub (millis s.world) s.lastSend ≥ INTERVALS TransmissionMode.MODE_2HZ) :
    (∀ k, k ≤ 6000 → ((loop env)^[k] s).world.clock = s.world.clock + 10 * k
        ∧ ((loop env)^[k] s).modeCount = s.modeCount
        ∧ ((loop env)^[k] s).currentMode = TransmissionMode.MODE_2HZ)
    ∧ dbKeys ((loop env)^[6000] s).world.trace
        = readingKeys s.modeCount 120 ++ dbKeys s.world.trace
    ∧ ((loop env)^[6000] s).readingCount = 120
    ∧ ((loop env)^[6001] s).currentMode = TransmissionMode.MODE_1HZ
    ∧ ((loop env)^[6001] s).modeCount = s.modeCount + 1
    ∧ dbKeys ((loop env)^[6001] s).world.trace
        = readingKeys s.modeCount 120 ++ dbKeys s.world.trace := by
  have hpass := rs_two_hz_passes env s hmode hstart hcount hdue
  have hfin : ∀ s1 : State, s1.currentMode = TransmissionMode.MODE_2HZ
      → s1.modeStartTime = s.world.clock % ULONG_MOD → s1.modeCount = s.modeCount
      → s1.lastSend = (s.world.clock + 59500) % ULONG_MOD
      → s1.world.clock = s.world.clock + 60000
      → (loop env s1).currentMode = TransmissionMode.MODE_1HZ
        ∧ (loop env s1).modeCount = s.modeCount + 1
        ∧ dbKeys (loop env s1).world.trace = dbKeys s1.world.trace := by
    intro s1 b1 b2 b3 b5 b6
    have hm : millis s1.world = (s.world.clock + 60000) % ULONG_MOD := by
      unfold millis; rw [b6]
    have h1 : usub (millis s1.world) s1.modeStartTime ≥ MODE_DURATION := by
      have hs : s1.modeStartTime = (s.world.clock + 0) % ULONG_MOD := by rw [b2]; rfl
      rw [hm, hs, usub_add_left _ _ _ (Nat.zero_le _)]
      decide
    have h2 : ¬ usub (millis s1.world) s1.lastSend ≥ 1000 := by
      rw [hm, b5, usub_add_left _ _ _ (by omega)]
      decide
    rw [rs_loop_leave_two_hz env s1 b1 h1 h2]
    exact ⟨rfl, congrArg (· + 1) b3, rfl⟩
  obtain ⟨b1, b2, b3, b4, b5, b6, b7⟩ := hpass 5999 (by omega)
  simp only [show 5999 + 1 = 6000 from rfl, show 5999 / 50 + 1 = 120 from rfl,
    show 500 * (5999 / 50) = 59500 from rfl, show 10 * 6000 = 60000 from rfl] at b1 b2 b3 b4 b5 b6 b7
  have hlast : (loop env)^[6001] s = loop env ((loop env)^[6000] s) :=
    Function.iterate_succ_apply' (loop env) 6000 s
  obtain ⟨d1, d2, d3⟩ := hfin _ b1 b2 b3 b5 b6
  refine ⟨?_, b7, ?_, ?_, ?_, ?_⟩
  · intro k hk
    cases k with
    | zero => exact ⟨rfl, rfl, hmode⟩
    | succ k =>
      obtain ⟨c1, -, c3, -, -, c6, -⟩ := hpass k (by omega)
      exact ⟨c6, c3, c1⟩
  · rw [b4]; rfl
  · rw [hlast]; exact d1
  · rw [hlast]; exact d2
  · rw [hlast, d3]; exact b7

/-- Witness for C5: the state `setup` returns at power-on in the live
environment. -/
theorem rateSweep_two_hz_uploads_witness :
    setup liveEnv 61 powerOn = some afterSetup
    ∧ dbKeys ((loop liveEnv)^[6001] afterSetup).world.trace
        = readingKeys afterSetup.modeCount 120 ++ dbKeys afterSetup.world.trace
    ∧ ((loop liveEnv)^[6001] afterSetup).modeCount = afterSetup.modeCount + 1 :=
  ⟨by decide,
    (rateSweep_two_hz_uploads liveEnv afterSetup rfl (by decide) rfl (by decide)).2.2.2.2.2,
    (rateSweep_two_hz_uploads liveEnv afterSetup rfl (by decide) rfl (by decide)).2.2.2.2.1⟩

end RateSweep

/-! ## C4: the wake cycle when the link never comes up -/

namespace LowPower

end LowPower

/-! ## C8 and C10: the waits for Firebase -/

theorem usub_elapsed (c d : Nat) (h : d < ULONG_MOD) :
    usub ((c + d) % ULONG_MOD) (c % ULONG_MOD) = d := by
  have h1 := usub_add_left c d 0 (Nat.zero_le _)
  rw [Nat.add_zero, Nat.sub_zero, Nat.mod_eq_of_lt h] at h1
  exact h1

theorem dbSets_append (evs t : List Event) (h : ∀ e ∈ evs, e.isDbSet = false) :
    dbSets (evs ++ t) = dbSets t := by
  unfold dbSets
  rw [List.countP_append, List.countP_eq_zero.2 (fun e he => by simp [h e he]), Nat.zero_add]

namespace RateSweep

theorem rs_halt_none (fuel : Nat) : ∀ w : World, halt fuel w = none := by
  induction fuel with
  | zero => intro w; rfl
  | succ fuel ih => intro w; simp only [halt]; exact ih _

theorem rs_authWaitLoop_spec (env : Env) (fuel : Nat) :
    ∀ (attempts : Nat) (w : World), 30 - attempts < fuel →
      ∃ a1 w1 evs, authWaitLoop env fuel attempts w = some (a1, w1)
        ∧ w1.trace = evs ++ w.trace
        ∧ attempts ≤ a1 ∧ a1 ≤ max attempts 30
        ∧ w1.clock = w.clock + 1000 * (a1 - attempts) := by
  induction fuel with
  | zero => intro attempts w h; omega
  | succ fuel ih =>
    intro attempts w h
    unfold authWaitLoop
    by_cases hc : (appReady env w).1 = false ∧ attempts < 30
    · simp only [hc, and_self, if_true]
      obtain ⟨a1, w1, evs, h1, h2, h3, h4, h5⟩ :=
        ih (attempts + 1) (delay 1000 (appReady env w).2) (by omega)
      refine ⟨a1, w1, evs ++ [Event.ready (env.ready w.readyPolls)], h1, ?_, by omega,
        by omega, ?_⟩
      · rw [h2]; simp [appReady, delay]
      · rw [h5]; simp [appReady, delay]; omega
    · simp only [hc, if_false]
      refine ⟨attempts, _, [Event.ready (env.ready w.readyPolls)], rfl, ?_, le_refl _,
        le_max_left _ _, ?_⟩
      · simp [appReady]
      · simp [appReady]

theorem rs_authWaitLoop_trace (env : Env) (fuel : Nat) :
    ∀ (attempts : Nat) (w : World) (r : Nat × World),
      authWaitLoop env fuel attempts w = some r → ∃ evs, r.2.trace = evs ++ w.trace := by
  induction fuel with
  | zero => intro attempts w r h; simp [authWaitLoop] at h
  | succ fuel ih =>
    intro attempts w r h
    unfold authWaitLoop at h
    by_cases hc : (appReady env w).1 = false ∧ attempts < 30
    · simp only [hc, and_self, if_true] at h
      obtain ⟨evs, he⟩ := ih _ _ _ h
      exact ⟨evs ++ [Event.ready (env.ready w.readyPolls)], by rw [he]; simp [appReady, delay]⟩
    · simp only [hc, if_false] at h
      have := Option.some.inj h
      subst this
      exact ⟨[Event.ready (env.ready w.readyPolls)], by simp [appReady]⟩

theorem rs_setup_halts (env : Env)
    (h : (∀ k, env.link k = false) ∨ (∀ k, env.ready k = false)) :
    ∀ (fuel : Nat) (w : World), setup env fuel w = none := by
  intro fuel w
  unfold setup
  cases h1 : setupWiFi env fuel (delay 1000 w) with
  | none => simp only [h1]
  | some w2 =>
    simp only [h1]
    rcases Bool.eq_false_or_eq_true (wifiStatus env w2).1 with hc | hc
    · simp only [hc, Bool.true_eq_false, if_false]
      cases h2 : authWaitLoop env fuel 0 (emit Event.initApp (wifiStatus env w2).2) with
      | none => rfl
      | some r =>
        obtain ⟨a, w5⟩ := r
        simp only
        rcases Bool.eq_false_or_eq_true (appReady env w5).1 with hr | hr
        · rcases h with h | h
          · simp [wifiStatus, h] at hc
          · simp [appReady, h] at hr
        · simp only [hr, if_true]
          exact rs_halt_none _ _
    · simp only [hc, if_true]
      exact rs_halt_none _ _

theorem rs_setup_success (env : Env) (fuel : Nat) (w : World) (s : State)
    (h : setup env fuel w = some s) :
    ∃ t, s.world.trace = Event.ready true :: t ∧ Event.status true ∈ t := by
  unfold setup at h
  cases h1 : setupWiFi env fuel (delay 1000 w) with
  | none => simp [h1] at h
  | some w2 =>
    simp only [h1] at h
    rcases Bool.eq_false_or_eq_true (wifiStatus env w2).1 with hc | hc
    · simp only [hc, Bool.true_eq_false, if_false] at h
      cases h2 : authWaitLoop env fuel 0 (emit Event.initApp (wifiStatus env w2).2) with
      | none => simp [h2] at h
      | some r =>
        obtain ⟨a, w5⟩ := r
        simp only [h2] at h
        rcases Bool.eq_false_or_eq_true (appReady env w5).1 with hr | hr
        · simp only [hr, Bool.true_eq_false, if_false] at h
          have hs := Option.some.inj h
          subst hs
          obtain ⟨evs, hev⟩ := rs_authWaitLoop_trace env fuel 0 _ _ h2
          simp only at hev
          refine ⟨w5.trace, ?_, ?_⟩
          · simp only [appReady] at hr
            simp [delay, appReady, hr]
          · rw [hev]
            simp only [wifiStatus] at hc
            simp [emit, wifiStatus, hc]
        · simp only [hr, if_true] at h
          rw [rs_halt_none] at h
          exact absurd h (by simp)
    · simp only [hc, if_true] at h
      rw [rs_halt_none] at h
      exact absurd h (by simp)

end RateSweep

namespace LowPower

theorem lp_authWaitLoop_spec (env : Env) (c0 : Nat) (fuel : Nat) :
    ∀ (d : Nat) (w : World), w.clock = c0 + d → d % 100 = 0 → d ≤ 8000 →
      80 - d / 100 < fuel →
      ∃ w1 evs, authWaitLoop env (c0 % ULONG_MOD) fuel w = some w1
        ∧ w1.trace = evs ++ w.trace ∧ (∀ e ∈ evs, ∃ k, e = Event.ready (env.ready k))
        ∧ w.clock ≤ w1.clock ∧ w1.clock ≤ c0 + 8000
        ∧ w.readyPolls < w1.readyPolls ∧ w1.readyPolls ≤ w.readyPolls + 81 - d / 100
        ∧ w1.polls = w.polls ∧ w1.pulses = w.pulses ∧ w1.radioOn = w.radioOn := by
  induction fuel with
  | zero => intro d w _ _ _ h; omega
  | succ fuel ih =>
    intro d w hw hd hle hf
    unfold authWaitLoop
    have hel : usub (millis (appReady env w).2) (c0 % ULONG_MOD) = d := by
      have : millis (appReady env w).2 = (c0 + d) % ULONG_MOD := by
        simp [millis, appReady, hw]
      rw [this]
      exact usub_elapsed c0 d (by unfold ULONG_MOD; omega)
    by_cases hc : (appReady env w).1 = false ∧ usub (millis (appReady env w).2) (c0 % ULONG_MOD) < 8000
    · simp only [hc, and_self, if_true]
      have hlt : d < 8000 := by rw [← hel]; exact hc.2
      obtain ⟨w1, evs, h1, h2, h3, h4, h5, h6, h7, h8, h9, h10⟩ :=
        ih (d + 100) (delay 100 (appReady env w).2) (by simp [delay, appReady, hw]; omega)
          (by omega) (by omega) (by omega)
      refine ⟨w1, evs ++ [Event.ready (env.ready w.readyPolls)], h1, ?_, ?_, ?_, h5, ?_, ?_, ?_,
        ?_, ?_⟩
      · rw [h2]; simp [delay, appReady]
      · intro e he
        simp only [List.mem_append, List.mem_singleton] at he
        rcases he with he | he
        · exact h3 e he
        · exact ⟨_, he⟩
      · have : (delay 100 (appReady env w).2).clock = w.clock + 100 := by simp [delay, appReady]
        omega
      · have : (delay 100 (appReady env w).2).readyPolls = w.readyPolls + 1 := by
          simp [delay, appReady]
        omega
      · have : (delay 100 (appReady env w).2).readyPolls = w.readyPolls + 1 := by
          simp [delay, appReady]
        omega
      · rw [h8]; simp [delay, appReady]
      · rw [h9]; simp [delay, appReady]
      · rw [h10]; simp [delay, appReady]
    · simp only [hc, if_false]
      refine ⟨_, [Event.ready (env.ready w.readyPolls)], rfl, ?_, ?_, ?_, ?_, ?_, ?_, ?_, ?_, ?_⟩
      · simp [appReady]
      · intro e he
        simp only [List.mem_singleton] at he
        exact ⟨_, he⟩
      · simp [appReady]
      · simp [appReady]; omega
      · simp [appReady]
      · simp [appReady]; omega
      · simp [appReady]
      · simp [appReady]
      · simp [appReady]

theorem lp_sendToFirebase_spec (env : Env) (fuel : Nat) (hfuel : 81 ≤ fuel) (bootCount : Int)
    (distance : ℚ) (w : World) :
    ∃ sent w1, sendToFirebase env fuel bootCount distance w = some (sent, w1)
      ∧ (sent = false → dbSets w1.trace = dbSets w.trace)
      ∧ ((∀ k, k < 82 → env.ready (w.readyPolls + k) = false) → sent = false)
      ∧ initCalls w1.trace = initCalls w.trace + 1 := by
  unfold sendToFirebase
  obtain ⟨w2, evs, h1, h2, h3, -, -, h6, h7, -⟩ :=
    lp_authWaitLoop_spec env (emit Event.initApp w).clock fuel 0 (emit Event.initApp w) rfl
      rfl (by omega) (by omega)
  have hm : millis (emit Event.initApp w) = (emit Event.initApp w).clock % ULONG_MOD := rfl
  simp only [hm, h1]
  have hnd : ∀ e ∈ evs, e.isDbSet = false := by
    intro e he
    obtain ⟨k, hk⟩ := h3 e he
    rw [hk]; rfl
  have hni : ∀ e ∈ evs, e ≠ Event.initApp := by
    intro e he
    obtain ⟨k, hk⟩ := h3 e he
    rw [hk]; exact fun h => Event.noConfusion h
  rcases Bool.eq_false_or_eq_true (appReady env w2).1 with hc | hc
  · simp only [hc, Bool.true_eq_false, if_false]
    refine ⟨true, _, rfl, fun h => absurd h (by decide), ?_, ?_⟩
    · intro hr
      have hidx : w2.readyPolls = w.readyPolls + (w2.readyPolls - w.readyPolls) := by
        simp only [emit] at h6; omega
      have := hr (w2.readyPolls - w.readyPolls) (by simp only [emit] at h7; omega)
      rw [← hidx] at this
      simp only [appReady] at hc
      rw [this] at hc
      exact absurd hc (by decide)
    · simp only [delay, emit, appReady, h2, initCalls, List.count_cons, List.count_append]
      have := List.count_eq_zero.2 (fun hmem => hni _ hmem rfl)
      simp [this]
  · simp only [hc, if_true]
    refine ⟨false, _, rfl, fun _ => ?_, fun _ => rfl, ?_⟩
    · simp only [appReady, h2, emit]
      rw [show Event.ready (env.ready w2.readyPolls) :: (evs ++ Event.initApp :: w.trace)
          = (Event.ready (env.ready w2.readyPolls) :: evs ++ [Event.initApp]) ++ w.trace by simp]
      apply dbSets_append
      intro e he
      simp only [List.mem_append, List.mem_cons, List.mem_singleton, List.not_mem_nil,
        or_false] at he
      rcases he with (he | he) | he
      · rw [he]; rfl
      · exact hnd e he
      · rw [he]; rfl
    · simp only [appReady, h2, emit, initCalls, List.count_cons, List.count_append]
      have := List.count_eq_zero.2 (fun hmem => hni _ hmem rfl)
      simp [this]

theorem lp_setup_total (env : Env) (fuel : Nat) (hfuel : 81 ≤ fuel) (s : State) :
    ∃ s1 t, setup env fuel s = some s1
      ∧ s1.world.trace = Event.deepSleepStart :: Event.timerWakeup SLEEP_DURATION :: t := by
  unfold setup
  obtain ⟨c, w2, -, h1, -⟩ := lp_connectWiFi_spec env fuel (by omega)
    (blinkLED 1 (readUltrasonic env (delay 500 s.world)).2)
  simp only [h1]
  cases c
  · simp only [if_true]
    exact ⟨_, _, rfl, rfl⟩
  · simp only [Bool.true_eq_false, if_false]
    obtain ⟨sent, w4, g1, -⟩ := lp_sendToFirebase_spec env fuel hfuel (s.bootCount + 1)
      (if (readUltrasonic env (delay 500 s.world)).1 < 0 then 100.0
        else (readUltrasonic env (delay 500 s.world)).1) (blinkLED 2 w2)
    simp only [g1]
    exact ⟨_, _, rfl, rfl⟩

end LowPower

/-! ## C9: the keys of the rate sweep -/

namespace RateSweep

theorem rs_transition_keys (currentTime : Nat) (s : State) (h : KeysInv s) :
    KeysInv (transition currentTime s) := by
  unfold transition
  by_cases hd : usub currentTime s.modeStartTime ≥ MODE_DURATION
  · simp only [hd, if_true]
    by_cases hr : TransmissionMode.fromNat ((s.currentMode.toNat + 1) % 5)
        = TransmissionMode.MODE_2HZ ∧ s.modeCount ≥ 5
    · simp only [hr, and_self, if_true]
      refine ⟨?_, ?_⟩
      · simpa [delay, emit, sweepKeys] using h.1
      · intro p hp
        have hp1 : p ∈ sweepKeys s.world.trace := by simpa [delay, emit, sweepKeys] using hp
        have hR : restarts (delay 30000 (emit Event.allDone (delay 10000 s.world))).trace
            = restarts s.world.trace + 1 := by
          simp [delay, emit, restarts, List.count_cons]
        have := (h.2 p hp1).1
        simp only [hR]
        exact ⟨by omega, fun he => by omega⟩
    · simp only [hr, if_false]
      refine ⟨by simpa [delay] using h.1, ?_⟩
      intro p hp
      have hp1 : p ∈ sweepKeys s.world.trace := by simpa [delay] using hp
      obtain ⟨a1, a2⟩ := h.2 p hp1
      refine ⟨by simpa [delay] using a1, fun he => ?_⟩
      obtain ⟨m, r, e1, e2⟩ := a2 (by simpa [delay] using he)
      refine ⟨m, r, e1, Or.inl ?_⟩
      simp only
      rcases e2 with e2 | e2
      · omega
      · omega
  · simp only [hd, if_false]
    exact h

theorem rs_send_keys (env : Env) (currentTime : Nat) (s : State) (h : KeysInv s) :
    KeysInv (send env currentTime s) := by
  unfold send
  by_cases hd : usub currentTime s.lastSend ≥ INTERVALS s.currentMode
  · simp only [hd, if_true]
    have hk : sweepKeys (emit (Event.dbSet [s.modeCount, s.readingCount + 1] "/timestamp"
          (millis (emit (Event.dbSet [s.modeCount, s.readingCount + 1] "/distance"
            (if (readUltrasonic env s.world).1 < 0 then 100.0 else (readUltrasonic env s.world).1))
            (readUltrasonic env s.world).2) : ℚ))
        (emit (Event.dbSet [s.modeCount, s.readingCount + 1] "/distance"
          (if (readUltrasonic env s.world).1 < 0 then 100.0 else (readUltrasonic env s.world).1))
          (readUltrasonic env s.world).2)).trace
        = (restarts s.world.trace, [s.modeCount, s.readingCount + 1])
            :: sweepKeys s.world.trace := by
      simp [emit, sweepKeys, rs_readUltrasonic_world, pulseIn, restarts, List.count_cons]
    have hR : restarts (emit (Event.dbSet [s.modeCount, s.readingCount + 1] "/timestamp"
          (millis (emit (Event.dbSet [s.modeCount, s.readingCount + 1] "/distance"
            (if (readUltrasonic env s.world).1 < 0 then 100.0 else (readUltrasonic env s.world).1))
            (readUltrasonic env s.world).2) : ℚ))
        (emit (Event.dbSet [s.modeCount, s.readingCount + 1] "/distance"
          (if (readUltrasonic env s.world).1 < 0 then 100.0 else (readUltrasonic env s.world).1))
          (readUltrasonic env s.world).2)).trace
        = restarts s.world.trace := by
      simp [emit, rs_readUltrasonic_world, pulseIn, restarts, List.count_cons]
    refine ⟨?_, ?_⟩
    · simp only [hk]
      refine List.nodup_cons.2 ⟨fun hmem => ?_, h.1⟩
      obtain ⟨m, r, e1, e2⟩ := (h.2 _ hmem).2 rfl
      simp only [List.cons.injEq, and_true] at e1
      obtain ⟨e3, e4⟩ := e1
      rcases e2 with e2 | e2
      · omega
      · omega
    · intro p hp
      simp only [hk, List.mem_cons] at hp
      simp only [hR]
      rcases hp with hp | hp
      · subst hp
        exact ⟨le_refl _, fun _ => ⟨_, _, rfl, Or.inr ⟨rfl, le_refl _⟩⟩⟩
      · obtain ⟨a1, a2⟩ := h.2 p hp
        refine ⟨a1, fun he => ?_⟩
        obtain ⟨m, r, e1, e2⟩ := a2 he
        refine ⟨m, r, e1, ?_⟩
        rcases e2 with e2 | e2
        · exact Or.inl e2
        · exact Or.inr ⟨e2.1, by have := e2.2; omega⟩
  · simp only [hd, if_false]
    exact h

theorem rs_loop_keys (env : Env) (s : State) (h : KeysInv s) : KeysInv (loop env s) := by
  have h1 := rs_send_keys env (millis s.world) _ (rs_transition_keys (millis s.world) s h)
  exact h1

theorem rs_run_keys (env : Env) (ts : List Nat) :
    ∀ s : State, KeysInv s → KeysInv (run env ts s) := by
  induction ts with
  | nil => intro s h; exact h
  | cons t ts ih =>
    intro s h
    simp only [run]
    exact ih _ (rs_loop_keys env _ h)

/-- C9 (amended). Rate sweep, from any state with no reading uploaded yet
(such as the state `setup` leaves) and for every sequence of passes of
`loop()`: two distinct upload attempts made in the same sweep, that is with
the same number of restarts (`ALL TESTS COMPLETED!`) before them, never use
the same pair of mode counter and reading number, from which the path is
built. (A restart sets the mode counter back to 1, so paths are used again
from one sweep to the next.) -/
theorem rateSweep_keys_unique_in_sweep (env : Env) (ts : List Nat) (s : State)
    (h0 : sweepKeys s.world.trace = []) :
    (sweepKeys (run env ts s).world.trace).Nodup := by
  have hinv : KeysInv s := by
    unfold KeysInv
    rw [h0]
    exact ⟨List.nodup_nil, fun p hp => absurd hp (List.not_mem_nil _)⟩
  exact (rs_run_keys env ts s hinv).1

/-- Witness for C9 (amended): the run that restarts the sweep. -/
theorem rateSweep_keys_unique_in_sweep_witness :
    sweepKeys afterSetup.world.trace = []
    ∧ (sweepKeys
        (run blindEnv [3500, 63500, 123500, 183500, 243500, 303500] afterSetup).world.trace).Nodup :=
  ⟨rfl, rateSweep_keys_unique_in_sweep blindEnv [3500, 63500, 123500, 183500, 243500, 303500]
    afterSetup rfl⟩

/-- C9, as stated, fails: six passes a minute apart from the state `setup`
leaves take the sweep through its five modes and restart it, and the reading
sent after the restart uses the key `/power_test/mode_1/reading_1` of the
first reading again. -/
theorem rateSweep_key_reused :
    setup blindEnv 61 powerOn = some afterSetup
    ∧ uploadPaths
        (run blindEnv [3500, 63500, 123500, 183500, 243500, 303500] afterSetup).world.trace
      = ["/power_test/mode_1/reading_1", "/power_test/mode_5/reading_1",
          "/power_test/mode_4/reading_1", "/power_test/mode_3/reading_1",
          "/power_test/mode_2/reading_1", "/power_test/mode_1/reading_1"]
    ∧ ¬ (uploadPaths
        (run blindEnv [3500, 63500, 123500, 183500, 243500, 303500] afterSetup).world.trace).Nodup :=
  ⟨by decide, by decide, by decide⟩

end RateSweep

/-! ## C15: the persistent counters -/

namespace LowPower

theorem lp_setup_counters (env : Env) (fuel : Nat) (hfuel : 81 ≤ fuel) (s : State) :
    ∃ s1 t, setup env fuel s = some s1
      ∧ s1.world.trace = Event.deepSleepStart :: Event.timerWakeup SLEEP_DURATION :: t
      ∧ s1.bootCount = s.bootCount + 1
      ∧ ((s1.successfulReadings = s.successfulReadings + 1
            ∧ s1.failedReadings = s.failedReadings)
          ∨ (s1.successfulReadings = s.successfulReadings
            ∧ s1.failedReadings = s.failedReadings + 1)) := by
  unfold setup
  obtain ⟨c, w2, -, h1, -⟩ := lp_connectWiFi_spec env fuel (by omega)
    (blinkLED 1 (readUltrasonic env (delay 500 s.world)).2)
  simp only [h1]
  cases c
  · simp only [if_true]
    exact ⟨_, _, rfl, rfl, rfl, Or.inr ⟨rfl, rfl⟩⟩
  · simp only [Bool.true_eq_false, if_false]
    obtain ⟨sent, w4, g1, -⟩ := lp_sendToFirebase_spec env fuel hfuel (s.bootCount + 1)
      (if (readUltrasonic env (delay 500 s.world)).1 < 0 then 100.0
        else (readUltrasonic env (delay 500 s.world)).1) (blinkLED 2 w2)
    simp only [g1]
    cases sent
    · exact ⟨_, _, rfl, rfl, rfl, Or.inr ⟨rfl, rfl⟩⟩
    · exact ⟨_, _, rfl, rfl, rfl, Or.inl ⟨rfl, rfl⟩⟩

theorem lp_cycles_counters (env : Env) (fuel : Nat) (hfuel : 81 ≤ fuel) (n : Nat) :
    ∀ s : State, ∃ s1, cycles env fuel n s = some s1
      ∧ s1.bootCount = s.bootCount + n
      ∧ s1.successfulReadings + s1.failedReadings
          = s.successfulReadings + s.failedReadings + n := by
  induction n with
  | zero => intro s; exact ⟨s, rfl, by simp, by simp⟩
  | succ n ih =>
    intro s
    obtain ⟨s1, t, h1, -, h3, h4⟩ := lp_setup_counters env fuel hfuel (wake s)
    obtain ⟨s2, g1, g2, g3⟩ := ih s1
    refine ⟨s2, by simp only [cycles, h1, g1], ?_, ?_⟩
    · rw [g2, h3]; simp only [wake]; push_cast; ring
    · rw [g3]
      simp only [wake] at h4
      push_cast
      rcases h4 with ⟨a, b⟩ | ⟨a, b⟩ <;> rw [a, b] <;> ring

/-- C15. Deep-sleep pipeline, for every behaviour of the environment: each
wake cycle returns from `setup` into deep sleep having added one to
`bootCount` and one to exactly one of `successfulReadings` and
`failedReadings`, the other unchanged. Hence after any number of wake cycles
`successfulReadings + failedReadings` has grown as much as `bootCount`, and
from all three at 0 the two sides are equal at every entry into deep sleep.
The counters are mathematical integers (no overflow). -/
theorem lowPower_counters (env : Env) (fuel : Nat) (hfuel : 81 ≤ fuel) (s : State) (n : Nat) :
    (∃ s1 t, setup env fuel s = some s1
      ∧ s1.world.trace = Event.deepSleepStart :: Event.timerWakeup SLEEP_DURATION :: t
      ∧ s1.bootCount = s.bootCount + 1
      ∧ ((s1.successfulReadings = s.successfulReadings + 1
            ∧ s1.failedReadings = s.failedReadings)
          ∨ (s1.successfulReadings = s.successfulReadings
            ∧ s1.failedReadings = s.failedReadings + 1)))
    ∧ (∃ s1, cycles env fuel n s = some s1
      ∧ s1.bootCount = s.bootCount + n
      ∧ s1.successfulReadings + s1.failedReadings
          = s.successfulReadings + s.failedReadings + n)
    ∧ (∃ s1, cycles env fuel n firstBoot = some s1
      ∧ s1.successfulReadings + s1.failedReadings = s1.bootCount) := by
  refine ⟨lp_setup_counters env fuel hfuel s, lp_cycles_counters env fuel hfuel n s, ?_⟩
  obtain ⟨s1, h1, h2, h3⟩ := lp_cycles_counters env fuel hfuel n firstBoot
  refine ⟨s1, h1, ?_⟩
  rw [h3, h2]
  simp [firstBoot]

/-- Witness for C15: three wake cycles from first boot in the dead
environment. -/
theorem lowPower_counters_witness :
    81 ≤ 81
    ∧ (∃ s1, cycles deadEnv 81 3 firstBoot = some s1
      ∧ s1.successfulReadings + s1.failedReadings = s1.bootCount) :=
  ⟨le_refl 81, (lowPower_counters deadEnv 81 (le_refl 81) firstBoot 3).2.2⟩

end LowPower

/-! ## C13: how long a mode of the rate sweep runs -/

namespace RateSweep

theorem rs_send_frame (env : Env) (currentTime : Nat) (s : State) :
    (send env currentTime s).currentMode = s.currentMode
    ∧ (send env currentTime s).modeStartTime = s.modeStartTime
    ∧ (send env currentTime s).modeCount = s.modeCount
    ∧ (send env currentTime s).world.clock = s.world.clock := by
  unfold send
  split
  · simp [emit, rs_readUltrasonic_world, pulseIn]
  · exact ⟨rfl, rfl, rfl, rfl⟩

theorem rs_loop_stay (env : Env) (s : State)
    (h1 : ¬ usub (millis s.world) s.modeStartTime ≥ MODE_DURATION) :
    (loop env s).currentMode = s.currentMode
    ∧ (loop env s).modeStartTime = s.modeStartTime
    ∧ (loop env s).world.clock = s.world.clock + 10 := by
  have ht : transition (millis s.world) s = s := by simp [transition, h1]
  obtain ⟨a1, a2, -, a4⟩ := rs_send_frame env (millis s.world) s
  simp only [loop, ht, delay]
  exact ⟨a1, a2, by rw [a4]⟩

theorem rs_passes_stay (env : Env) (c0 d : Nat) (k : Nat) :
    ∀ s : State, s.world.clock = c0 + d → s.modeStartTime = c0 % ULONG_MOD →
      d + 10 * k ≤ 60000 →
      ((loop env)^[k] s).currentMode = s.currentMode
      ∧ ((loop env)^[k] s).modeStartTime = s.modeStartTime
      ∧ ((loop env)^[k] s).world.clock = s.world.clock + 10 * k := by
  induction k with
  | zero => intro s _ _ _; exact ⟨rfl, rfl, rfl⟩
  | succ k ih =>
    intro s hc hs hk
    obtain ⟨b1, b2, b3⟩ := ih s hc hs (by omega)
    rw [Function.iterate_succ_apply']
    have h1 : ¬ usub (millis ((loop env)^[k] s).world) ((loop env)^[k] s).modeStartTime
        ≥ MODE_DURATION := by
      have hm : millis ((loop env)^[k] s).world = (c0 + (d + 10 * k)) % ULONG_MOD := by
        unfold millis; rw [b3, hc, Nat.add_assoc]
      rw [hm, b2, hs, usub_elapsed c0 (d + 10 * k) (by unfold ULONG_MOD; omega)]
      unfold MODE_DURATION
      omega
    obtain ⟨a1, a2, a3⟩ := rs_loop_stay env _ h1
    exact ⟨a1.trans b1, a2.trans b2, by rw [a3, b3]; ring⟩

theorem rs_loop_leave (env : Env) (c0 d : Nat) (s : State)
    (hc : s.world.clock = c0 + d) (hs : s.modeStartTime = c0 % ULONG_MOD)
    (hd : 60000 ≤ d) (hW : d < ULONG_MOD)
    (hn : TransmissionMode.fromNat ((s.currentMode.toNat + 1) % 5)
      ≠ TransmissionMode.MODE_2HZ) :
    (loop env s).currentMode = TransmissionMode.fromNat ((s.currentMode.toNat + 1) % 5)
    ∧ (loop env s).modeStartTime = (c0 + d) % ULONG_MOD
    ∧ (loop env s).world.clock = s.world.clock + 10010 := by
  have hm : millis s.world = (c0 + d) % ULONG_MOD := by unfold millis; rw [hc]
  have h1 : MODE_DURATION ≤ usub (millis s.world) s.modeStartTime := by
    rw [hm, hs, usub_elapsed c0 d hW]
    exact hd
  have ht : transition (millis s.world) s
      = { s with
          currentMode := TransmissionMode.fromNat ((s.currentMode.toNat + 1) % 5),
          modeCount := s.modeCount + 1, readingCount := 0,
          modeStartTime := millis s.world, world := delay 10000 s.world } := by
    simp [transition, h1, hn]
  obtain ⟨a1, a2, -, a4⟩ := rs_send_frame env (millis s.world) (transition (millis s.world) s)
  simp only [loop, delay]
  refine ⟨?_, ?_, ?_⟩
  · rw [a1, ht]
  · rw [a2, ht, hm]
  · rw [a4, ht]; simp [delay]

/-- C13 fails on the code. From the state `setup` leaves (clock 3500 ms), with
passes of `loop()` separated only by its own delays: the first mode is left by
the pass that starts at 63 500 ms, 60 000 ms after it began. That pass pauses
for 10 000 ms and then sets `modeStartTime` to the time read before the pause,
so the first pass that starts in the second mode starts at 73 510 ms and the
pass that leaves the second mode starts at 123 500 ms: the second mode runs
for 49 990 ms, not 60 000 ms. -/
theorem rateSweep_second_mode_runs_fifty_seconds (env : Env) :
    afterSetup.world.clock = 3500
    ∧ ((loop env)^[6000] afterSetup).currentMode = TransmissionMode.MODE_2HZ
    ∧ ((loop env)^[6000] afterSetup).world.clock = 63500
    ∧ (loop env ((loop env)^[6000] afterSetup)).currentMode = TransmissionMode.MODE_1HZ
    ∧ (loop env ((loop env)^[6000] afterSetup)).modeStartTime = 63500
    ∧ (loop env ((loop env)^[6000] afterSetup)).world.clock = 73510
    ∧ (∀ k, k ≤ 4999 →
        ((loop env)^[k] (loop env ((loop env)^[6000] afterSetup))).currentMode
          = TransmissionMode.MODE_1HZ
        ∧ ((loop env)^[k] (loop env ((loop env)^[6000] afterSetup))).world.clock
          = 73510 + 10 * k)
    ∧ (loop env ((loop env)^[4999] (loop env ((loop env)^[6000] afterSetup)))).currentMode
        = TransmissionMode.MODE_0_5HZ
    ∧ 73510 + 10 * 4999 - 73510 = 49990 := by
  have hA := rs_passes_stay env 3500 0 6000 afterSetup rfl rfl (by norm_num)
  have hB : ∀ sA : State, sA.currentMode = TransmissionMode.MODE_2HZ
      → sA.modeStartTime = 3500 % ULONG_MOD → sA.world.clock = 3500 + 60000
      → (loop env sA).currentMode = TransmissionMode.MODE_1HZ
        ∧ (loop env sA).modeStartTime = 63500 % ULONG_MOD
        ∧ (loop env sA).world.clock = 63500 + 10010 := by
    intro sA m1 m2 m3
    obtain ⟨a1, a2, a3⟩ := rs_loop_leave env 3500 60000 sA m3 m2 (le_refl _) (by decide)
      (by rw [m1]; decide)
    refine ⟨?_, ?_, ?_⟩
    · rw [a1, m1]; rfl
    · rw [a2]
    · rw [a3, m3]
  have hC : ∀ sB : State, sB.currentMode = TransmissionMode.MODE_1HZ
      → sB.modeStartTime = 63500 % ULONG_MOD → sB.world.clock = 63500 + 10010
      → (∀ k, k ≤ 4999 → ((loop env)^[k] sB).currentMode = TransmissionMode.MODE_1HZ
          ∧ ((loop env)^[k] sB).modeStartTime = 63500 % ULONG_MOD
          ∧ ((loop env)^[k] sB).world.clock = 63500 + 10010 + 10 * k) := by
    intro sB m1 m2 m3 k hk
    obtain ⟨a1, a2, a3⟩ := rs_passes_stay env 63500 10010 k sB m3 m2 (by omega)
    exact ⟨a1.trans m1, a2.trans m2, by rw [a3, m3]⟩
  have hD : ∀ sC : State, sC.currentMode = TransmissionMode.MODE_1HZ
      → sC.modeStartTime = 63500 % ULONG_MOD → sC.world.clock = 63500 + 60000
      → (loop env sC).currentMode = TransmissionMode.MODE_0_5HZ := by
    intro sC m1 m2 m3
    obtain ⟨a1, -, -⟩ := rs_loop_leave env 63500 60000 sC m3 m2 (le_refl _) (by decide)
      (by rw [m1]; decide)
    rw [a1, m1]; rfl
  obtain ⟨A1, A2, A3⟩ := hA
  have A1' : ((loop env)^[6000] afterSetup).currentMode = TransmissionMode.MODE_2HZ := A1
  have A2' : ((loop env)^[6000] afterSetup).modeStartTime = 3500 % ULONG_MOD := A2
  have A3' : ((loop env)^[6000] afterSetup).world.clock = 3500 + 60000 := A3
  obtain ⟨B1, B2, B3⟩ := hB _ A1' A2' A3'
  have hCk := hC _ B1 B2 B3
  obtain ⟨C1, C2, C3⟩ := hCk 4999 (le_refl _)
  refine ⟨rfl, A1', A3', B1, B2, B3, fun k hk => ?_, hD _ C1 C2 C3, by norm_num⟩
  obtain ⟨c1, -, c3⟩ := hCk k hk
  exact ⟨c1, c3⟩

end RateSweep

/-! ## C14: the time awake -/

namespace LowPower

/-- C14 fails on the code. The clock counts the `delay` calls since wake-up
and `enterDeepSleep` itself starts with `delay(100)`, so the time awake at
the call of `enterDeepSleep` is the final clock less 100. At first boot it is
11 400 ms when the link never comes up and 10 200 ms when the link is up at
once and Firebase never becomes ready, both above `AWAKE_TIMEOUT` = 10 000 ms;
when everything answers at once it is 2 700 ms. -/
theorem lowPower_awake_exceeds_timeout :
    (∀ w, (enterDeepSleep w).clock = w.clock + 100)
    ∧ firstBoot.world.clock = 0
    ∧ (∃ s1, setup deadEnv 21 firstBoot = some s1
        ∧ s1.world.clock = 11500 ∧ AWAKE_TIMEOUT < s1.world.clock - 100)
    ∧ (∃ s1, setup noAuthEnv 81 firstBoot = some s1
        ∧ s1.world.clock = 10300 ∧ AWAKE_TIMEOUT < s1.world.clock - 100)
    ∧ (∃ s1, setup acceptEnv 81 firstBoot = some s1
        ∧ s1.world.clock = 2800 ∧ s1.world.clock - 100 ≤ AWAKE_TIMEOUT) :=
  ⟨fun _ => rfl, rfl, ⟨_, rfl, by decide, by decide⟩, ⟨_, rfl, by decide, by decide⟩,
    ⟨_, rfl, by decide, by decide⟩⟩

end LowPower

/-! ## C11: a rejected upload -/

namespace LowPower

/-- C11 fails on the code. First boot with the link up, Firebase ready and a
store that rejects every write: `setup` makes its three `Database.set` calls
once each, `sendToFirebase` returns true all the same, and the cycle ends with
`successfulReadings = 1` and `failedReadings = 0`, exactly as when the store
accepts every write. -/
theorem lowPower_rejected_write_counted_as_success :
    (∀ k, rejectEnv.accept k = false)
    ∧ (∃ w, sendToFirebase rejectEnv 81 1 100 powerOn = some (true, w))
    ∧ (∃ s1, setup rejectEnv 81
          { bootCount := 0, successfulReadings := 0, failedReadings := 0, world := powerOn }
          = some s1
        ∧ s1.bootCount = 1 ∧ s1.successfulReadings = 1 ∧ s1.failedReadings = 0
        ∧ dbSets s1.world.trace = 3)
    ∧ setup rejectEnv 81
        { bootCount := 0, successfulReadings := 0, failedReadings := 0, world := powerOn }
      = setup acceptEnv 81
        { bootCount := 0, successfulReadings := 0, failedReadings := 0, world := powerOn } :=
  ⟨fun _ => rfl, ⟨_, rfl⟩, ⟨_, rfl, by decide, by decide, by decide, by decide⟩, rfl⟩

end LowPower

/-! ## C8: bounded waits, and the one fatal failure -/

/-- C8, as stated, fails: in the rate sweep `setup` does not return, with any
amount of fuel, when the link never comes up, nor when the link is up and
Firebase never becomes ready; it stops in `while(1) delay(1000);`. -/
theorem rateSweep_setup_never_returns :
    (¬ ∃ fuel s, RateSweep.setup deadEnv fuel powerOn = some s)
    ∧ (¬ ∃ fuel s, RateSweep.setup noAuthEnv fuel powerOn = some s) := by
  constructor
  · rintro ⟨fuel, s, h⟩
    rw [RateSweep.rs_setup_halts deadEnv (Or.inl (fun _ => rfl))] at h
    exact absurd h (by simp)
  · rintro ⟨fuel, s, h⟩
    rw [RateSweep.rs_setup_halts noAuthEnv (Or.inr (fun _ => rfl))] at h
    exact absurd h (by simp)

/-- C8 (amended). For every behaviour of the link and of Firebase, with fuel
for 81 loop iterations: every wait is bounded (the connection loops by an
attempt count, the Firebase waits by 8000 ms and by 30 attempts). In the
round-robin demo every pass of `loop()` returns and in the deep-sleep pipeline
`setup` returns, having armed the timer and started deep sleep, whatever
failed. In the rate sweep the waits of `setup` are bounded as well, but a
failure there is fatal by design: `setup` returns only after a connected
status and a ready Firebase, and when the link never comes up or Firebase
never becomes ready it ends in a loop without exit and never returns.
(`loop()` of the rate sweep has no inner loop and is a total function.) -/
theorem waits_bounded (env : Env) (fuel : Nat) (hfuel : 81 ≤ fuel) :
    (∀ s, ∃ s1, RoundRobin.loop env fuel s = some s1)
    ∧ (∀ s, ∃ s1 t, LowPower.setup env fuel s = some s1
        ∧ s1.world.trace
            = Event.deepSleepStart :: Event.timerWakeup LowPower.SLEEP_DURATION :: t)
    ∧ (∀ w, ∃ c w1, LowPower.connectWiFi env fuel w = some (c, w1)
        ∧ w1.clock ≤ w.clock + 10000)
    ∧ (∀ w, ∃ w1, LowPower.authWaitLoop env (millis w) fuel w = some w1
        ∧ w1.clock ≤ w.clock + 8000)
    ∧ (∀ w, ∃ w1, RateSweep.setupWiFi env fuel w = some w1 ∧ w1.clock ≤ w.clock + 30500)
    ∧ (∀ w, ∃ a w1, RateSweep.authWaitLoop env fuel 0 w = some (a, w1) ∧ a ≤ 30
        ∧ w1.clock = w.clock + 1000 * a)
    ∧ (∀ f w s, RateSweep.setup env f w = some s →
        ∃ t, s.world.trace = Event.ready true :: t ∧ Event.status true ∈ t)
    ∧ (((∀ k, env.link k = false) ∨ (∀ k, env.ready k = false)) →
        ∀ f w, RateSweep.setup env f w = none) := by
  refine ⟨?_, ?_, ?_, ?_, ?_, ?_, ?_, ?_⟩
  · intro s
    obtain ⟨s1, h1, -⟩ := RoundRobin.rr_loop_spec env fuel (by omega) s
    exact ⟨s1, h1⟩
  · intro s
    obtain ⟨s1, t, h1, h2⟩ := LowPower.lp_setup_total env fuel hfuel s
    exact ⟨s1, t, h1, h2⟩
  · intro w
    obtain ⟨c, w1, -, h1, -, -, -, -, -, h7, -⟩ :=
      LowPower.lp_connectWiFi_spec env fuel (by omega) w
    exact ⟨c, w1, h1, h7⟩
  · intro w
    obtain ⟨w1, -, h1, -, -, -, h5, -⟩ :=
      LowPower.lp_authWaitLoop_spec env w.clock fuel 0 w rfl rfl (by omega) (by omega)
    exact ⟨w1, h1, h5⟩
  · intro w
    obtain ⟨w1, -, h1, -, -, -, -, -, h7, -⟩ := RateSweep.rs_setupWiFi_spec env fuel (by omega) w
    exact ⟨w1, h1, h7⟩
  · intro w
    obtain ⟨a, w1, -, h1, -, -, h4, h5⟩ := RateSweep.rs_authWaitLoop_spec env fuel 0 w (by omega)
    exact ⟨a, w1, h1, by simpa using h4, by simpa using h5⟩
  · intro f w s h
    exact RateSweep.rs_setup_success env f w s h
  · intro h f w
    exact RateSweep.rs_setup_halts env h f w

/-- Witness for C8 (amended): the dead environment with fuel 81; the deep-sleep
pipeline reaches deep sleep and the `setup` of the rate sweep does not
return. -/
theorem waits_bounded_witness :
    81 ≤ 81
    ∧ ((∀ k, deadEnv.link k = false) ∨ (∀ k, deadEnv.ready k = false))
    ∧ (∃ s1 t, LowPower.setup deadEnv 81
          { bootCount := 0, successfulReadings := 0, failedReadings := 0, world := powerOn }
          = some s1
        ∧ s1.world.trace
            = Event.deepSleepStart :: Event.timerWakeup LowPower.SLEEP_DURATION :: t)
    ∧ RateSweep.setup deadEnv 81 powerOn = none :=
  ⟨le_refl 81, Or.inl (fun _ => rfl),
    (waits_bounded deadEnv 81 (le_refl 81)).2.1 _,
    (waits_bounded deadEnv 81 (le_refl 81)).2.2.2.2.2.2.2 (Or.inl (fun _ => rfl)) 81 powerOn⟩

/-! ## C3: the distance computed from the echo duration -/

theorem lp_readUltrasonic_eq (env : Env) (w : World) :
    LowPower.readUltrasonic env w = RoundRobin.readUltrasonic env w := rfl

theorem rs_readUltrasonic_eq (env : Env) (w : World) :
    RateSweep.readUltrasonic env w = RoundRobin.readUltrasonic env w := rfl

/-- C2, as stated, fails: when the access point never associates the station,
`connectWiFi` reads `WiFi.status()` 22 times with `MAX_WIFI_ATTEMPTS = 20`
(21 reads by the loop condition and one after the loop), the `setupWiFi` of
the rate sweep reads it 63 times and the `setupWiFi` of the round-robin demo
67 times, with 60 attempts allowed. -/
theorem connect_polls_exceed_attempts :
    (∃ r, LowPower.connectWiFi deadEnv 21 powerOn = some r
        ∧ r.2.polls = powerOn.polls + 22
        ∧ ¬ (r.2.polls ≤ powerOn.polls + LowPower.MAX_WIFI_ATTEMPTS))
    ∧ (∃ w1, RateSweep.setupWiFi deadEnv 61 powerOn = some w1
        ∧ w1.polls = powerOn.polls + 63 ∧ ¬ (w1.polls ≤ powerOn.polls + 60))
    ∧ (∃ w1, RoundRobin.setupWiFi deadEnv 61 powerOn = some w1
        ∧ w1.polls = powerOn.polls + 67 ∧ ¬ (w1.polls ≤ powerOn.polls + 60)) :=
  ⟨⟨_, rfl, by decide, by decide⟩, ⟨_, rfl, by decide, by decide⟩,
    ⟨_, rfl, by decide, by decide⟩⟩

/-- C2 (amended). For every behaviour of the link and every starting world,
with fuel for 61 evaluations of the loop condition each connection routine
returns. Its loop ends with `attempts` at most the allowed maximum (60, 60,
20), having waited 500 ms once per attempt and read `WiFi.status()` once more
than it waited (the round-robin loop reads it once more at attempts 20, 40 and
60); the whole call reads `WiFi.status()` at most 67 times (round-robin
`setupWiFi`), 63 times (rate-sweep `setupWiFi`) and 22 times
(`connectWiFi`). -/
theorem connect_bounded (env : Env) (fuel : Nat) (hfuel : 61 ≤ fuel) (w : World) :
    (∃ a w1, RoundRobin.setupWiFiLoop env fuel 0 w = some (a, w1) ∧ a ≤ 60
        ∧ w1.clock = w.clock + 500 * a ∧ w1.polls = w.polls + (a + 1) + a / 20)
    ∧ (∃ w1, RoundRobin.setupWiFi env fuel w = some w1 ∧ w1.polls ≤ w.polls + 67)
    ∧ (∃ a w1, RateSweep.setupWiFiLoop env fuel 0 w = some (a, w1) ∧ a ≤ 60
        ∧ w1.clock = w.clock + 500 * a ∧ w1.polls = w.polls + (a + 1))
    ∧ (∃ w1, RateSweep.setupWiFi env fuel w = some w1 ∧ w1.polls ≤ w.polls + 63)
    ∧ (∃ a w1, LowPower.connectWiFiLoop env fuel 0 w = some (a, w1)
        ∧ a ≤ LowPower.MAX_WIFI_ATTEMPTS
        ∧ w1.clock = w.clock + 500 * a ∧ w1.polls = w.polls + (a + 1))
    ∧ (∃ c w1, LowPower.connectWiFi env fuel w = some (c, w1) ∧ w1.polls ≤ w.polls + 22) := by
  refine ⟨?_, ?_, ?_, ?_, ?_, ?_⟩
  · obtain ⟨a, w1, -, h1, -, -, -, h5, h6, h7, -⟩ :=
      RoundRobin.rr_setupWiFiLoop_spec env fuel 0 w (by omega)
    exact ⟨a, w1, h1, by simpa using h5, by simpa using h7, by simp at h6; omega⟩
  · obtain ⟨w1, -, h1, -, -, -, h5, -⟩ := RoundRobin.rr_setupWiFi_spec env fuel hfuel w
    exact ⟨w1, h1, h5⟩
  · obtain ⟨a, w1, -, h1, -, -, -, h5, h6, h7, -⟩ :=
      RateSweep.rs_setupWiFiLoop_spec env fuel 0 w (by omega)
    exact ⟨a, w1, h1, by simpa using h5, by simpa using h7, by simp at h6; omega⟩
  · obtain ⟨w1, -, h1, -, -, -, h5, -⟩ := RateSweep.rs_setupWiFi_spec env fuel hfuel w
    exact ⟨w1, h1, h5⟩
  · obtain ⟨a, w1, -, h1, -, -, -, h5, h6, h7, -⟩ :=
      LowPower.lp_connectWiFiLoop_spec env fuel 0 w (by omega)
    exact ⟨a, w1, h1, by simpa [LowPower.MAX_WIFI_ATTEMPTS] using h5, by simpa using h7,
      by simp at h6; omega⟩
  · obtain ⟨c, w1, -, h1, -, -, -, h5, -⟩ :=
      LowPower.lp_connectWiFi_spec env fuel (by omega) w
    exact ⟨c, w1, h1, h5⟩

/-- Witness for C2 (amended): the dead environment at power-on with fuel 61. -/
theorem connect_bounded_witness :
    61 ≤ 61
    ∧ (∃ w1, RoundRobin.setupWiFi deadEnv 61 powerOn = some w1
        ∧ w1.polls ≤ powerOn.polls + 67)
    ∧ (∃ c w1, LowPower.connectWiFi deadEnv 61 powerOn = some (c, w1)
        ∧ w1.polls ≤ powerOn.polls + 22) :=
  ⟨le_refl 61, (connect_bounded deadEnv 61 (le_refl 61) powerOn).2.1,
    (connect_bounded deadEnv 61 (le_refl 61) powerOn).2.2.2.2.2⟩

end BatteryLab
